import Mathlib

/-!
Verification development for the pwnmap backend's parsing, normalization and
correlation pipeline.  Python string and list operations are shallowly embedded
as executable Lean functions over `String` / `List Char`; fallible Python code
(functions that raise) is embedded with `Option` / `Except`.  SQLite state is
embedded as an explicit list of rows with an autoincrement counter.

Modelling boundaries (each noted again at the definition it concerns):
* `json.loads` is external; a decoded document is represented by the `Json`
  inductive, with `none` standing for bytes that fail to decode.
* Python `float` values are represented by `PyNum`, an exact decimal
  (integer mantissa over a power of ten); non-finite floats (`inf`, `nan`)
  and binary rounding artifacts are outside the model.
* `datetime.fromisoformat` is modelled on the CPython pre-3.11 grammar (the
  source performs an explicit `"Z" → "+00:00"` replacement, which targets
  exactly that grammar).
-/

namespace Pwnmap

/-! ## Python string primitives (over `List Char`) -/

/-- Characters stripped by Python `str.strip()` with no argument (ASCII part). -/
def isPyWs (c : Char) : Bool :=
  c = ' ' || c = '\t' || c = '\n' || c = '\r' || c = '\x0b' || c = '\x0c'

/-- Python `str.strip()`. -/
def pyStrip (s : String) : String :=
  ((s.toList.dropWhile isPyWs).reverse.dropWhile isPyWs).reverse.asString

/-- Python `str.rstrip("\r\n")`. -/
def isCRLF (c : Char) : Bool :=
  c = '\r' || c = '\n'

def rstripCRLF (s : String) : String :=
  (s.toList.reverse.dropWhile isCRLF).reverse.asString

/-- Python `str.upper()` (ASCII). -/
def pyUpper (s : String) : String :=
  (s.toList.map Char.toUpper).asString

/-- Python `str.lower()` (ASCII). -/
def pyLower (s : String) : String :=
  (s.toList.map Char.toLower).asString

/-- Python `needle in haystack`-style prefix test, `str.startswith`. -/
def pyStartsWith (s pre : String) : Bool :=
  List.isPrefixOf pre.toList s.toList

/-- Split on a single-character separator, Python `str.split(sep)` semantics:
`"".split(sep) = [""]`, separators at the ends produce empty fields. -/
def charSplitAux (sep : Char) : List Char → List Char → List (List Char)
  | [], acc => [acc.reverse]
  | c :: rest, acc =>
    if c = sep then acc.reverse :: charSplitAux sep rest []
    else charSplitAux sep rest (c :: acc)

def pySplit (sep : Char) (s : String) : List String :=
  (charSplitAux sep s.toList []).map List.asString

/-- Python `str.split(sep, 1)[1]`: everything after the first occurrence. -/
def afterFirstAux (sep : Char) : List Char → List Char
  | [] => []
  | c :: rest => if c = sep then rest else afterFirstAux sep rest

def afterFirst (sep : Char) (s : String) : String :=
  (afterFirstAux sep s.toList).asString

/-- Everything before the first occurrence of `sep` (Python `split(sep, 1)[0]`). -/
def beforeFirstAux (sep : Char) : List Char → List Char
  | [] => []
  | c :: rest => if c = sep then [] else c :: beforeFirstAux sep rest

def beforeFirst (sep : Char) (s : String) : String :=
  (beforeFirstAux sep s.toList).asString

/-- Python `sep in s` for a single character. -/
def pyContainsChar (s : String) (sep : Char) : Bool :=
  s.toList.contains sep

/-- Substring containment, Python `needle in haystack`. -/
def containsSubAux (needle : List Char) : List Char → Bool
  | [] => List.isPrefixOf needle []
  | c :: rest => List.isPrefixOf needle (c :: rest) || containsSubAux needle rest

def containsSub (haystack needle : String) : Bool :=
  containsSubAux needle.toList haystack.toList

/-- Python `str.splitlines()` restricted to `\n`, `\r\n`, `\r` terminators
(the only terminators appearing in the modelled data). -/
def splitlinesAux : List Char → List Char → List (List Char)
  | [], acc => if acc.isEmpty then [] else [acc.reverse]
  | '\r' :: '\n' :: rest, acc => acc.reverse :: splitlinesAux rest []
  | '\r' :: rest, acc => acc.reverse :: splitlinesAux rest []
  | '\n' :: rest, acc => acc.reverse :: splitlinesAux rest []
  | c :: rest, acc => splitlinesAux rest (c :: acc)

def pySplitlines (s : String) : List String :=
  (splitlinesAux s.toList []).map List.asString

/-- Hex-digit predicates matching the source's character-set membership tests. -/
def isHexUpper (c : Char) : Bool :=
  c.isDigit || ('A' ≤ c && c ≤ 'F')

def isHexLower (c : Char) : Bool :=
  c.isDigit || ('a' ≤ c && c ≤ 'f')

def isHexAny (c : Char) : Bool :=
  c.isDigit || ('A' ≤ c && c ≤ 'F') || ('a' ≤ c && c ≤ 'f')

/-! ## wpasec_sync.py: potfile line parsing -/

/-- `_hex_to_mac`: strip, upper-case; if exactly 12 upper-hex characters, join
byte pairs with colons, else return `""`. -/
def macJoinChars : List Char → List Char
  | a :: b :: c :: rest => a :: b :: ':' :: macJoinChars (c :: rest)
  | l => l

def hex_to_mac (s : String) : String :=
  let u := pyUpper (pyStrip s)
  if u.length = 12 && u.toList.all isHexUpper then
    (macJoinChars u.toList).asString
  else ""

/-- `_MAC_RE.fullmatch`: six case-insensitive hex byte pairs joined by colons
(the regex's word-boundary anchors are vacuous under `fullmatch`). -/
def isValidBssid (s : String) : Bool :=
  match s.toList with
  | [a1, a2, c1, b1, b2, c2, d1, d2, c3, e1, e2, c4, f1, f2, c5, g1, g2] =>
    c1 = ':' && c2 = ':' && c3 = ':' && c4 = ':' && c5 = ':' &&
    isHexAny a1 && isHexAny a2 && isHexAny b1 && isHexAny b2 &&
    isHexAny d1 && isHexAny d2 && isHexAny e1 && isHexAny e2 &&
    isHexAny f1 && isHexAny f2 && isHexAny g1 && isHexAny g2
  | _ => false

/-- Canonical hardware-address form: exactly six two-hex-digit groups,
upper-case, joined by colons — the shape `_hex_to_mac` emits. -/
def isCanonicalMac (s : String) : Bool :=
  match s.toList with
  | [a1, a2, c1, b1, b2, c2, d1, d2, c3, e1, e2, c4, f1, f2, c5, g1, g2] =>
    c1 = ':' && c2 = ':' && c3 = ':' && c4 = ':' && c5 = ':' &&
    isHexUpper a1 && isHexUpper a2 && isHexUpper b1 && isHexUpper b2 &&
    isHexUpper d1 && isHexUpper d2 && isHexUpper e1 && isHexUpper e2 &&
    isHexUpper f1 && isHexUpper f2 && isHexUpper g1 && isHexUpper g2
  | _ => false

/-- `re.search(key + "([0-9A-Fa-f]{12})", s)`: leftmost occurrence of the
literal `key` followed by at least 12 hex characters; returns those 12. -/
def findKeyHex12 (key : List Char) : List Char → Option (List Char)
  | [] => none
  | c :: rest =>
    if List.isPrefixOf key (c :: rest) then
      let tail := (c :: rest).drop key.length
      let grp := tail.take 12
      if grp.length = 12 && grp.all isHexAny then some grp
      else findKeyHex12 key rest
    else findKeyHex12 key rest

/-- Recognizer 1 of `parse_pot_line`: short form `MIC:APMAC:STAMAC:SSID:PASS`
(≥ 5 colon fields, address in field 1, password in the last field). -/
def tryShortForm (s : String) : Option (String × String) :=
  let pc := pySplit ':' s
  if pc.length ≥ 5 then
    let bssid := hex_to_mac (pc.getD 1 "")
    let pwd := pc.getLastD ""
    if bssid ≠ "" && pwd ≠ "" then some (bssid, pwd) else none
  else none

/-- Recognizer 2: plain form `APMAC:STAMAC:SSID:PASS` (≥ 4 colon fields,
address in field 0). -/
def tryPlainForm (s : String) : Option (String × String) :=
  let pc := pySplit ':' s
  if pc.length ≥ 4 then
    let bssid := hex_to_mac (pc.getD 0 "")
    let pwd := pc.getLastD ""
    if bssid ≠ "" && pwd ≠ "" then some (bssid, pwd) else none
  else none

/-- Recognizer 3: hash-line form `WPA*01/02*...:PASS`. -/
def tryHashForm (s : String) : Option (String × String) :=
  if pyContainsChar s ':' then
    let hashpart := beforeFirst ':' s
    let pwd := afterFirst ':' s
    if pwd ≠ "" && pyStartsWith hashpart "WPA*" then
      let seg := pySplit '*' hashpart
      if seg.length ≥ 3 && (seg.getD 1 "" = "01" || seg.getD 1 "" = "02") then
        if seg.length ≥ 5 && pyUpper (seg.getD 2 "") = "PMKID" &&
            hex_to_mac (seg.getD 3 "") ≠ "" then
          some (hex_to_mac (seg.getD 3 ""), pwd)
        else if hex_to_mac (seg.getD 2 "") ≠ "" then
          some (hex_to_mac (seg.getD 2 ""), pwd)
        else none
      else none
    else none
  else none

/-- Recognizer 4: key-value fallback over the fixed label list; the password is
everything after the line's first colon (empty password falls to the next key). -/
def kvKeys : List String := ["AP=", "APMAC=", "BSSID=", "AP_MAC=", "BSSID_MAC="]

def tryKvKeys (s : String) : List String → Option (String × String)
  | [] => none
  | k :: ks =>
    match findKeyHex12 k.toList s.toList with
    | some grp =>
      let bssid := hex_to_mac grp.asString
      if bssid ≠ "" then
        let pwd := if pyContainsChar s ':' then afterFirst ':' s else ""
        if pwd ≠ "" then some (bssid, pwd) else tryKvKeys s ks
      else tryKvKeys s ks
    | none => tryKvKeys s ks

def tryKvForm (s : String) : Option (String × String) :=
  tryKvKeys s kvKeys

/-- `parse_pot_line`: strip trailing CR/LF, reject empty and `#` comment lines,
then try the four recognizers in order, first success winning.  (The source's
blanket `except: return None` is unreachable: every indexing it performs is
guarded by a length test.) -/
def parsePotStripped (s : String) : Option (String × String) :=
  if s = "" || pyStartsWith s "#" then none
  else
    (tryShortForm s).orElse fun _ =>
    (tryPlainForm s).orElse fun _ =>
    (tryHashForm s).orElse fun _ =>
    tryKvForm s

def parse_pot_line (line : String) : Option (String × String) :=
  parsePotStripped (rstripCRLF line)

/-! ## wpasec_sync.py: deduplication -/

/-- Association-list lookup (Python `dict.get`). -/
def lookupA (l : List (String × String)) (k : String) : Option String :=
  (l.find? (fun p => p.1 = k)).map Prod.snd

/-- Association-list insert/replace preserving insertion order
(Python `dict` assignment). -/
def setA (l : List (String × String)) (k v : String) : List (String × String) :=
  match l with
  | [] => [(k, v)]
  | (k0, v0) :: rest =>
    if k0 = k then (k0, v) :: rest else (k0, v0) :: setA rest k v

/-- One step of `_dedup_cracked`'s loop. -/
def dedupStep (best : List (String × String)) (bp : String × String) :
    List (String × String) :=
  if isValidBssid bp.1 then
    let k := pyUpper bp.1
    match lookupA best k with
    | none => setA best k bp.2
    | some cur => if cur = "" && bp.2 ≠ "" then setA best k bp.2 else best
  else best

/-- `_dedup_cracked`: keyed by upper-cased BSSID, keeping the first password
seen unless the kept one is empty and the new one is not. -/
def dedup_cracked (pairs : List (String × String)) : List (String × String) :=
  pairs.foldl dedupStep []

/-! ## db/queries.py and db/database.py: the `networks` table -/

/-- Exact decimal value `num / 10 ^ exp`, normalized so that either `exp = 0`
or `num` is not divisible by 10; stands in for Python float values on the
data paths modelled here (non-finite floats are outside the model). -/
structure PyNum where
  num : ℤ
  exp : ℕ
deriving DecidableEq

def pyNumNormAux : ℕ → ℤ → ℕ → ℤ × ℕ
  | 0, n, _ => (n, 0)
  | fuel + 1, n, e =>
    if e = 0 then (n, 0)
    else if n % 10 = 0 then pyNumNormAux fuel (n / 10) (e - 1)
    else (n, e)

/-- Normalizing constructor for `num / 10 ^ exp`. -/
def PyNum.mk10 (n : ℤ) (e : ℕ) : PyNum :=
  ⟨(pyNumNormAux e n e).1, (pyNumNormAux e n e).2⟩

def PyNum.ofInt (n : ℤ) : PyNum := ⟨n, 0⟩

/-- Column values passed to `insert_network_record` (all nullable, as in the
SQL schema; REAL columns carried as exact decimals). -/
structure InsertArgs where
  ssid : Option String
  hash_type : Option String
  hash_variant : Option String
  bssid : Option String
  vendor : Option String
  date : Option String
  time : Option String
  lat : Option PyNum
  lon : Option PyNum
  alt : Option PyNum
  accuracy : Option PyNum
  password : Option String
deriving DecidableEq

/-- A persisted row of the `networks` table. -/
structure NetworkRow extends InsertArgs where
  id : Nat
deriving DecidableEq

/-- SQLite `TRIM(x)` with no second argument removes spaces only. -/
def sqlTrim (s : String) : String :=
  ((s.toList.dropWhile (fun c => c = ' ')).reverse.dropWhile
    (fun c => c = ' ')).reverse.asString

/-- Remove every occurrence of a character, SQL `REPLACE(x, c, '')`. -/
def removeChar (c : Char) (s : String) : String :=
  (s.toList.filter (fun d => d ≠ c)).asString

/-- `REPLACE(REPLACE(UPPER(TRIM(x)), ':', ''), '-', '')` from
`bulk_update_passwords`. -/
def normBssidSql (s : String) : String :=
  removeChar '-' (removeChar ':' (pyUpper (sqlTrim s)))

/-- `password IS NULL OR TRIM(password) = ''`. -/
def pwBlank (p : Option String) : Bool :=
  match p with
  | none => true
  | some s => sqlTrim s = ""

/-- The address comparison of the UPDATE's WHERE clause; a NULL stored
address compares as not-true in SQL. -/
def rowMatches (b : String) (r : NetworkRow) : Bool :=
  match r.bssid with
  | none => false
  | some rb => normBssidSql rb = normBssidSql b

/-- Full WHERE clause of the UPDATE. -/
def updCond (b : String) (r : NetworkRow) : Bool :=
  rowMatches b r && pwBlank r.password

/-- One UPDATE statement: set the password on every matching blank row and
report the affected-row count (`cursor.rowcount`). -/
def applyPair (b p : String) (rows : List NetworkRow) :
    List NetworkRow × Nat :=
  (rows.map (fun r => if updCond b r then { r with password := some p } else r),
   (rows.filter (updCond b)).length)

/-- Row effect of one loop iteration of `bulk_update_passwords` (pairs with an
empty address or password are skipped). -/
def bulkRowsStep (rows : List NetworkRow) (bp : String × String) :
    List NetworkRow :=
  if bp.1 = "" || bp.2 = "" then rows else (applyPair bp.1 bp.2 rows).1

def bulkRows (items : List (String × String)) (rows : List NetworkRow) :
    List NetworkRow :=
  items.foldl bulkRowsStep rows

/-- One loop iteration of `bulk_update_passwords`, threading the updated-row
counter. -/
def bulkStep (acc : List NetworkRow × Nat) (bp : String × String) :
    List NetworkRow × Nat :=
  if bp.1 = "" || bp.2 = "" then acc
  else
    ((applyPair bp.1 bp.2 acc.1).1, acc.2 + (applyPair bp.1 bp.2 acc.1).2)

/-- `bulk_update_passwords`: apply every pair's UPDATE in order against the
table state and return the new state with the total affected-row count. -/
def bulk_update_passwords (items : List (String × String))
    (rows : List NetworkRow) : List NetworkRow × Nat :=
  items.foldl bulkStep (rows, 0)

/-- The row used by the C2 counterexample: one record with the canonical
address and no password yet. -/
def c2Row : NetworkRow :=
  { ssid := some "Net", hash_type := some "WPA", hash_variant := some "EAPOL",
    bssid := some "AA:BB:CC:DD:EE:FF", vendor := none,
    date := some "2025-08-29", time := some "21:05:52",
    lat := none, lon := none, alt := none, accuracy := none,
    password := none, id := 1 }

/-- The `networks` table state: rows plus the AUTOINCREMENT counter (the next
rowid SQLite will assign). -/
structure NetworksDb where
  rows : List NetworkRow
  nextId : Nat
deriving DecidableEq

/-- Equality test of the UNIQUE(bssid, date, time) index against concrete
non-null key values; a row carrying NULL in any keyed column never conflicts
(SQL NULL comparison semantics). -/
def keyMatches (b d t : String) (r : NetworkRow) : Bool :=
  r.bssid = some b && r.date = some d && r.time = some t

/-- Whether an INSERT OR IGNORE of `a` hits the UNIQUE(bssid, date, time)
index: only when all three key values of `a` are non-null and some stored row
carries exactly those values. -/
def insertConflicts (rows : List NetworkRow) (a : InsertArgs) : Bool :=
  match a.bssid, a.date, a.time with
  | some b, some d, some t => rows.any (keyMatches b d t)
  | _, _, _ => false

/-- The duplicate-id SELECT issued after an ignored insert:
`SELECT id FROM networks WHERE bssid = ? AND date = ? AND time = ?`
(first matching row; `-1` when none is found, as in the source). -/
def selectDupId (rows : List NetworkRow) (a : InsertArgs) : Int :=
  match a.bssid, a.date, a.time with
  | some b, some d, some t =>
    match rows.find? (keyMatches b d t) with
    | some r => Int.ofNat r.id
    | none => -1
  | _, _, _ => -1

/-- `insert_network_record`: INSERT OR IGNORE, then — when no row was inserted
and the address is non-null — look up and return the existing duplicate's id.
Returns the new state and the reported id. -/
def newRow (a : InsertArgs) (i : Nat) : NetworkRow :=
  { a with id := i }

def insert_network_record (db : NetworksDb) (a : InsertArgs) :
    NetworksDb × Int :=
  if insertConflicts db.rows a then
    if a.bssid.isSome then (db, selectDupId db.rows a)
    else (db, 0)
  else
    if db.nextId = 0 && a.bssid.isSome then
      ({ rows := db.rows ++ [newRow a db.nextId], nextId := db.nextId + 1 },
       selectDupId (db.rows ++ [newRow a db.nextId]) a)
    else
      ({ rows := db.rows ++ [newRow a db.nextId], nextId := db.nextId + 1 },
       Int.ofNat db.nextId)

/-! ## ingest.py: OUI vendor lookup -/

/-- `OUILookup._map_by_len`: one prefix→vendor map per prefix length. -/
structure OuiTable where
  m6 : List (String × String)
  m7 : List (String × String)
  m9 : List (String × String)
deriving DecidableEq

/-- One row of `OUILookup._load`'s CSV loop: skip empty rows, `#` comments and
rows with fewer than two cells; keep prefixes of 6, 7 or 9 upper-hex
characters.  (CSV decoding itself is the stdlib's; rows arrive as cell
lists.) -/
def loadOuiRow (t : OuiTable) (row : List String) : OuiTable :=
  match row with
  | [] => t
  | r0 :: _ =>
    if pyStartsWith r0 "#" then t
    else if row.length < 2 then t
    else
      let pfx := pyUpper (pyStrip r0)
      let vendor := pyStrip (row.getD 1 "")
      if pfx.length = 6 && pfx.toList.all isHexUpper then
        { t with m6 := setA t.m6 pfx vendor }
      else if pfx.length = 7 && pfx.toList.all isHexUpper then
        { t with m7 := setA t.m7 pfx vendor }
      else if pfx.length = 9 && pfx.toList.all isHexUpper then
        { t with m9 := setA t.m9 pfx vendor }
      else t

def load_oui (rows : List (List String)) : OuiTable :=
  rows.foldl loadOuiRow ⟨[], [], []⟩

/-- `"".join(c for c in bssid_hex12.upper() if c in "0123456789ABCDEF")`. -/
def ouiMacOf (s : String) : String :=
  ((pyUpper s).toList.filter isHexUpper).asString

def takeStr (n : Nat) (s : String) : String :=
  (s.toList.take n).asString

/-- One iteration of the lookup loop: `vendor = map.get(pref); if vendor:
return vendor` — a missing key and an empty vendor name both fall through. -/
def ouiHit (m : List (String × String)) (k : String) : Option String :=
  match lookupA m k with
  | some v => if v ≠ "" then some v else none
  | none => none

/-- `OUILookup.vendor_for_bssid`: empty input or fewer than 9 normalized hex
characters yield no vendor; otherwise prefix lengths 9, 7, 6 are tried in
order with the first (non-empty) hit winning. -/
def vendor_for_bssid (t : OuiTable) (s : String) : Option String :=
  if s = "" then none
  else if (ouiMacOf s).length < 9 then none
  else
    (ouiHit t.m9 (takeStr 9 (ouiMacOf s))).orElse fun _ =>
    (ouiHit t.m7 (takeStr 7 (ouiMacOf s))).orElse fun _ =>
    ouiHit t.m6 (takeStr 6 (ouiMacOf s))

/-- `lookup_vendor_from_csv`: strip separators, strip, upper-case, require
exactly 12 hex characters, then defer to `vendor_for_bssid`. -/
def lookup_vendor_from_csv (t : OuiTable) (b : Option String) : Option String :=
  match b with
  | none => none
  | some s =>
    if s = "" then none
    else
      if (pyUpper (pyStrip (removeChar '-' (removeChar ':' s)))).length = 12 &&
          (pyUpper (pyStrip (removeChar '-'
            (removeChar ':' s)))).toList.all isHexUpper then
        vendor_for_bssid t (pyUpper (pyStrip (removeChar '-' (removeChar ':' s))))
      else none

/-! ## ingest.py: GPS JSON parsing

`json.loads` itself is the stdlib's; its result is represented by `Json`
(with `jint`/`jfloat` kept apart, as Python distinguishes int and float).
An input whose bytes fail to decode is represented by `none`.  Non-finite
floats (`inf`, `nan`) are outside the `ℚ` value model. -/

inductive Json where
  | jnull
  | jbool (b : Bool)
  | jint (n : ℤ)
  | jfloat (x : PyNum)
  | jstr (s : String)
  | jarr (xs : List Json)
  | jobj (kvs : List (String × Json))

/-- Naive calendar date-time (second precision, no zone), as produced by
`datetime.replace(tzinfo=None)`. -/
structure DateTime where
  year : Nat
  month : Nat
  day : Nat
  hour : Nat
  minute : Nat
  second : Nat
deriving DecidableEq

def isLeapYear (y : Nat) : Bool :=
  y % 4 = 0 && (y % 100 ≠ 0 || y % 400 = 0)

def daysInMonth (y m : Nat) : Nat :=
  if m = 2 then (if isLeapYear y then 29 else 28)
  else if m = 4 || m = 6 || m = 9 || m = 11 then 30
  else 31

/-- The `datetime(...)` constructor's range validation. -/
def mkDateTime (y mo d h mi s : Nat) : Option DateTime :=
  if 1 ≤ y && y ≤ 9999 && 1 ≤ mo && mo ≤ 12 && 1 ≤ d && d ≤ daysInMonth y mo
      && h ≤ 23 && mi ≤ 59 && s ≤ 59 then
    some ⟨y, mo, d, h, mi, s⟩
  else none

def digVal (c : Char) : Nat := c.toNat - 48

def val2 (a b : Char) : Nat := 10 * digVal a + digVal b

def val4 (a b c d : Char) : Nat :=
  1000 * digVal a + 100 * digVal b + 10 * digVal c + digVal d

/-- `s.replace("Z", "+00:00")` over characters. -/
def replaceZ : List Char → List Char
  | [] => []
  | c :: r =>
    if c = 'Z' then '+' :: '0' :: '0' :: ':' :: '0' :: '0' :: replaceZ r
    else c :: replaceZ r

/-- The `HH[:MM[:SS[.fff[fff]]]]` time parser of CPython's pre-3.11
`fromisoformat` (fraction must have exactly 3 or 6 digits; it is validated
and discarded, since the record keeps second precision). -/
def parseIsoTimeCore (l : List Char) : Option (Nat × Nat × Nat) :=
  match l with
  | [h1, h2] =>
    if h1.isDigit && h2.isDigit then some (val2 h1 h2, 0, 0) else none
  | h1 :: h2 :: ':' :: rest =>
    if h1.isDigit && h2.isDigit then
      match rest with
      | [m1, m2] =>
        if m1.isDigit && m2.isDigit then some (val2 h1 h2, val2 m1 m2, 0)
        else none
      | m1 :: m2 :: ':' :: rest2 =>
        if m1.isDigit && m2.isDigit then
          match rest2 with
          | [s1, s2] =>
            if s1.isDigit && s2.isDigit then
              some (val2 h1 h2, val2 m1 m2, val2 s1 s2)
            else none
          | s1 :: s2 :: '.' :: frac =>
            if s1.isDigit && s2.isDigit && frac.all Char.isDigit &&
                (frac.length = 3 || frac.length = 6) then
              some (val2 h1 h2, val2 m1 m2, val2 s1 s2)
            else none
          | _ => none
        else none
      | _ => none
    else none
  | _ => none

def findCharIdx (c : Char) : List Char → Option Nat
  | [] => none
  | d :: rest =>
    if d = c then some 0
    else (findCharIdx c rest).map Nat.succ

/-- Offset-marker split of the time substring: the first `-` if any, else the
first `+` (mirroring `tstr.find('-') + 1 or tstr.find('+') + 1`). -/
def tzSplitIdx (l : List Char) : Option Nat :=
  match findCharIdx '-' l with
  | some i => some i
  | none => findCharIdx '+' l

/-- Offset validation: `HH:MM`, `HH:MM:SS` or `HH:MM:SS.ffffff` shapes only,
total magnitude under 24 hours (`timezone(timedelta)`); the value itself is
then discarded by `replace(tzinfo=None)`. -/
def tzOk (tz : List Char) : Bool :=
  (tz.length = 5 || tz.length = 8 || tz.length = 15) &&
  (match parseIsoTimeCore tz with
   | some (oh, om, os) => oh * 3600 + om * 60 + os < 86400
   | none => false)

/-- `datetime.fromisoformat` on the CPython pre-3.11 grammar:
`YYYY-MM-DD` optionally followed by one arbitrary separator character, a
time, and an offset. -/
def pyFromIso (s : String) : Option DateTime :=
  match s.toList with
  | y1 :: y2 :: y3 :: y4 :: '-' :: m1 :: m2 :: '-' :: d1 :: d2 :: rest =>
    if y1.isDigit && y2.isDigit && y3.isDigit && y4.isDigit &&
        m1.isDigit && m2.isDigit && d1.isDigit && d2.isDigit then
      match rest with
      | [] => mkDateTime (val4 y1 y2 y3 y4) (val2 m1 m2) (val2 d1 d2) 0 0 0
      | _ :: timechars =>
        match tzSplitIdx timechars with
        | some i =>
          if tzOk (timechars.drop (i + 1)) then
            match parseIsoTimeCore (timechars.take i) with
            | some (h, mi, sec) =>
              mkDateTime (val4 y1 y2 y3 y4) (val2 m1 m2) (val2 d1 d2) h mi sec
            | none => none
          else none
        | none =>
          match parseIsoTimeCore timechars with
          | some (h, mi, sec) =>
            mkDateTime (val4 y1 y2 y3 y4) (val2 m1 m2) (val2 d1 d2) h mi sec
          | none => none
    else none
  | _ => none

/-- `%m` of `strptime`: regex `1[0-2]|0[1-9]|[1-9]`, alternatives in order. -/
def strpM : List Char → List (Nat × List Char)
  | a :: b :: rest =>
    (if (a = '1' && b.isDigit && digVal b ≤ 2) ||
        (a = '0' && b.isDigit && 1 ≤ digVal b) then [(val2 a b, rest)] else [])
    ++ (if a.isDigit && 1 ≤ digVal a then [(digVal a, b :: rest)] else [])
  | [a] => if a.isDigit && 1 ≤ digVal a then [(digVal a, [])] else []
  | [] => []

/-- `%d`: regex `3[01]|[12]\d|0[1-9]|[1-9]`. -/
def strpD : List Char → List (Nat × List Char)
  | a :: b :: rest =>
    (if (a = '3' && (b = '0' || b = '1')) ||
        ((a = '1' || a = '2') && b.isDigit) ||
        (a = '0' && b.isDigit && 1 ≤ digVal b) then [(val2 a b, rest)] else [])
    ++ (if a.isDigit && 1 ≤ digVal a then [(digVal a, b :: rest)] else [])
  | [a] => if a.isDigit && 1 ≤ digVal a then [(digVal a, [])] else []
  | [] => []

/-- `%H`: regex `2[0-3]|[0-1]\d|\d`. -/
def strpH : List Char → List (Nat × List Char)
  | a :: b :: rest =>
    (if (a = '2' && b.isDigit && digVal b ≤ 3) ||
        ((a = '0' || a = '1') && b.isDigit) then [(val2 a b, rest)] else [])
    ++ (if a.isDigit then [(digVal a, b :: rest)] else [])
  | [a] => if a.isDigit then [(digVal a, [])] else []
  | [] => []

/-- `%M`: regex `[0-5]\d|\d`. -/
def strpMin : List Char → List (Nat × List Char)
  | a :: b :: rest =>
    (if a.isDigit && digVal a ≤ 5 && b.isDigit then [(val2 a b, rest)] else [])
    ++ (if a.isDigit then [(digVal a, b :: rest)] else [])
  | [a] => if a.isDigit then [(digVal a, [])] else []
  | [] => []

/-- `%S`: regex `6[0-1]|[0-5]\d|\d` (the 60/61 leap values are then rejected
by the `datetime` constructor). -/
def strpS : List Char → List (Nat × List Char)
  | a :: b :: rest =>
    (if (a = '6' && (b = '0' || b = '1')) ||
        (a.isDigit && digVal a ≤ 5 && b.isDigit) then [(val2 a b, rest)] else [])
    ++ (if a.isDigit then [(digVal a, b :: rest)] else [])
  | [a] => if a.isDigit then [(digVal a, [])] else []
  | [] => []

def strpLit (c : Char) : List Char → List (List Char)
  | a :: rest => if a = c then [rest] else []
  | [] => []

/-- Whitespace in a `strptime` format matches `\s+`. -/
def strpWs (l : List Char) : List (List Char) :=
  match l with
  | [] => []
  | c :: rest => if isPyWs c then [rest.dropWhile isPyWs] else []

/-- `datetime.strptime(s, "%Y-%m-%d %H:%M:%S")`: the format's regex with
ordered-alternative backtracking (list monad), full match required, then the
`datetime` constructor's validation. -/
def pyStrptimeYmdHms (s : String) : Option DateTime :=
  let l := s.toList
  let cands :=
    (match l with
     | y1 :: y2 :: y3 :: y4 :: rest =>
       if y1.isDigit && y2.isDigit && y3.isDigit && y4.isDigit then
         [(val4 y1 y2 y3 y4, rest)]
       else []
     | _ => []).flatMap fun (y, r1) =>
    (strpLit '-' r1).flatMap fun r2 =>
    (strpM r2).flatMap fun (mo, r3) =>
    (strpLit '-' r3).flatMap fun r4 =>
    (strpD r4).flatMap fun (d, r5) =>
    (strpWs r5).flatMap fun r6 =>
    (strpH r6).flatMap fun (h, r7) =>
    (strpLit ':' r7).flatMap fun r8 =>
    (strpMin r8).flatMap fun (mi, r9) =>
    (strpLit ':' r9).flatMap fun r10 =>
    (strpS r10).flatMap fun (sec, r11) =>
    if r11 = [] then [(y, mo, d, h, mi, sec)] else []
  match cands with
  | [] => none
  | (y, mo, d, h, mi, sec) :: _ => mkDateTime y mo d h mi sec

/-- `_parse_updated_datetime`: strip; try `fromisoformat` on the
Z-substituted text (then drop the zone); fall back to the fixed
`"%Y-%m-%d %H:%M:%S"` format; reject otherwise. -/
def parseUpdatedDatetime (updated : String) : Option DateTime :=
  match pyFromIso ((replaceZ (pyStrip updated).toList).asString) with
  | some dt => some dt
  | none => pyStrptimeYmdHms (pyStrip updated)

/-- Digit run with Python numeric-literal underscores (`4_5`); returns the
digits with underscores removed plus the unconsumed remainder. -/
def digitsU : List Char → Option (List Char × List Char)
  | [] => none
  | c :: rest =>
    if c.isDigit then
      match digitsUCont rest with
      | (ds, r) => some (c :: ds, r)
    else none
where
  digitsUCont : List Char → (List Char × List Char)
    | [] => ([], [])
    | c :: rest =>
      if c.isDigit then
        match digitsUCont rest with
        | (ds, r) => (c :: ds, r)
      else if c = '_' then
        match rest with
        | d :: rest2 =>
          if d.isDigit then
            match digitsUCont rest2 with
            | (ds, r) => (d :: ds, r)
          else ([], c :: rest)
        | [] => ([], [c])
      else ([], c :: rest)

def natOfDigits (l : List Char) : Nat :=
  l.foldl (fun acc c => 10 * acc + digVal c) 0

/-- `float(str)` on finite decimal literals: optional sign, digits with an
optional fraction (or a bare `.frac`), optional exponent; surrounding
whitespace stripped.  `inf`/`nan` are outside the decimal model and map to
`none`. -/
def pyFloatOfStr (s : String) : Option PyNum :=
  let l := (pyStrip s).toList
  let core : List Char → Option (ℤ × ℕ × List Char) := fun l1 =>
    match digitsU l1 with
    | some (ip, r1) =>
      match r1 with
      | '.' :: r2 =>
        match digitsU r2 with
        | some (fp, r3) =>
          some (((natOfDigits ip : ℤ) * (10 : ℤ) ^ fp.length
            + (natOfDigits fp : ℤ), fp.length, r3))
        | none => some ((natOfDigits ip : ℤ), 0, r2)
      | _ => some ((natOfDigits ip : ℤ), 0, r1)
    | none =>
      match l1 with
      | '.' :: r2 =>
        match digitsU r2 with
        | some (fp, r3) => some ((natOfDigits fp : ℤ), fp.length, r3)
        | none => none
      | _ => none
  let expPart : List Char → Option (ℤ × List Char) := fun r =>
    match r with
    | 'e' :: r1 | 'E' :: r1 =>
      match r1 with
      | '-' :: r2 =>
        match digitsU r2 with
        | some (ds, r3) => some (-(natOfDigits ds : ℤ), r3)
        | none => none
      | '+' :: r2 =>
        match digitsU r2 with
        | some (ds, r3) => some ((natOfDigits ds : ℤ), r3)
        | none => none
      | _ =>
        match digitsU r1 with
        | some (ds, r3) => some ((natOfDigits ds : ℤ), r3)
        | none => none
    | _ => some (0, r)
  let signed : List Char → Option (Bool × List Char) := fun r =>
    match r with
    | '-' :: r1 => some (true, r1)
    | '+' :: r1 => some (false, r1)
    | _ => some (false, r)
  match signed l with
  | some (neg, r0) =>
    match core r0 with
    | some (n0, e0, r1) =>
      match expPart r1 with
      | some (e10, r2) =>
        if r2 = [] then
          let n1 := if neg then -n0 else n0
          if 0 ≤ e10 then some (PyNum.mk10 (n1 * (10 : ℤ) ^ e10.toNat) e0)
          else some (PyNum.mk10 n1 (e0 + (-e10).toNat))
        else none
      | none => none
    | none => none
  | none => none

/-- `float(x)` on a decoded JSON value: numbers and booleans convert,
numeric strings parse, everything else raises. -/
def pyFloat : Json → Option PyNum
  | .jint n => some (PyNum.ofInt n)
  | .jfloat x => some x
  | .jbool b => some (PyNum.ofInt (if b then 1 else 0))
  | .jstr s => pyFloatOfStr s
  | .jnull => none
  | .jarr _ => none
  | .jobj _ => none

/-- Banker's rounding (Python `round`'s tie rule) of `n / 10 ^ e`. -/
def roundHalfEvenScaled (n : ℤ) (e : ℕ) : ℤ :=
  let d : ℤ := (10 : ℤ) ^ e
  let f := Int.fdiv n d
  let r2 := 2 * (n - f * d)
  if r2 < d then f
  else if d < r2 then f + 1
  else if f % 2 = 0 then f else f + 1

/-- `round(x, 2)` on the exact decimal value (a value with at most two
decimal digits is returned unchanged). -/
def round2 (x : PyNum) : PyNum :=
  if x.exp ≤ 2 then x
  else PyNum.mk10 (roundHalfEvenScaled x.num (x.exp - 2)) 2

def padNat (w : Nat) (n : Nat) : String :=
  let s := toString n
  if s.length < w then (List.replicate (w - s.length) '0').asString ++ s else s

/-- `str()` on a float value (exact-decimal rendering; only the string never
being datetime-shaped matters to the theorems). -/
def floatRepr (x : PyNum) : String :=
  if x.exp = 0 then toString x.num ++ ".0"
  else
    (if x.num < 0 then "-" else "") ++
    toString (x.num.natAbs / 10 ^ x.exp) ++ "." ++
    padNat x.exp (x.num.natAbs % 10 ^ x.exp)

/-- `str(x)` on a decoded JSON value (`str(data["Updated"])`); container
rendering is abstracted to bracket placeholders, which no datetime format
accepts. -/
def pyStr : Json → String
  | .jstr s => s
  | .jint n => toString n
  | .jbool b => if b then "True" else "False"
  | .jnull => "None"
  | .jfloat x => floatRepr x
  | .jarr _ => "[...]"
  | .jobj _ => "(dict)"

/-- `strftime("%Y-%m-%d")`. -/
def strfDate (dt : DateTime) : String :=
  padNat 4 dt.year ++ "-" ++ padNat 2 dt.month ++ "-" ++ padNat 2 dt.day

/-- `strftime("%H:%M:%S")`. -/
def strfTime (dt : DateTime) : String :=
  padNat 2 dt.hour ++ ":" ++ padNat 2 dt.minute ++ ":" ++ padNat 2 dt.second

/-- Keyed lookup in a decoded JSON object (`data[k]` / `data.get(k)`;
`json.loads` keeps the last duplicate key, so the object is already a
dict). -/
def objLookup (kvs : List (String × Json)) (k : String) : Option Json :=
  (kvs.find? (fun p => p.1 = k)).map Prod.snd

/-- Python `k in data`: key test on dicts, membership on lists, substring on
strings; `none` models the `TypeError` raised on other values. -/
def pyContains (j : Json) (k : String) : Option Bool :=
  match j with
  | .jobj kvs => some (objLookup kvs k).isSome
  | .jarr xs =>
    some (xs.any (fun x => match x with | .jstr s => s = k | _ => false))
  | .jstr s => some (containsSub s k)
  | _ => none

/-- `data.get(k)` with a JSON `null` collapsing to absent (the source tests
`is not None`). -/
def getNonNull (kvs : List (String × Json)) (k : String) : Option Json :=
  match objLookup kvs k with
  | some .jnull => none
  | some v => some v
  | none => none

/-- Result value of `parse_gps_json`. -/
structure GpsInfo where
  dt : DateTime
  latitude : PyNum
  longitude : PyNum
  altitude : Option PyNum
  accuracy : Option PyNum
deriving DecidableEq

/-- `parse_gps_json`: reject undecodable bytes; test the three required keys
(with Python's `in` semantics); then parse the timestamp, coordinates and the
optional altitude/accuracy in source order.  Every raising path is an
`.error` (the ValueError/TypeError distinction is carried only in the
message text). -/
def parse_gps_json (raw : Option Json) : Except String GpsInfo :=
  match raw with
  | none => .error "Invalid JSON"
  | some data =>
    match pyContains data "Updated" with
    | none => .error "TypeError: argument not iterable"
    | some false => .error "Missing one of required keys"
    | some true =>
      match pyContains data "Latitude" with
      | none => .error "TypeError: argument not iterable"
      | some false => .error "Missing one of required keys"
      | some true =>
        match pyContains data "Longitude" with
        | none => .error "TypeError: argument not iterable"
        | some false => .error "Missing one of required keys"
        | some true =>
          match data with
          | .jobj kvs =>
            match objLookup kvs "Updated" with
            | none => .error "KeyError"
            | some uv =>
              match parseUpdatedDatetime (pyStr uv) with
              | none => .error "Unrecognized Updated datetime format"
              | some dt =>
                match (objLookup kvs "Latitude").bind pyFloat with
                | none => .error "could not convert Latitude"
                | some lat =>
                  match (objLookup kvs "Longitude").bind pyFloat with
                  | none => .error "could not convert Longitude"
                  | some lon =>
                    match getNonNull kvs "Altitude" with
                    | some av =>
                      match pyFloat av with
                      | none => .error "could not convert Altitude"
                      | some aq =>
                        match getNonNull kvs "Accuracy" with
                        | some cv =>
                          match pyFloat cv with
                          | none => .error "could not convert Accuracy"
                          | some cq =>
                            .ok ⟨dt, lat, lon, some (round2 aq), some cq⟩
                        | none => .ok ⟨dt, lat, lon, some (round2 aq), none⟩
                    | none =>
                      match getNonNull kvs "Accuracy" with
                      | some cv =>
                        match pyFloat cv with
                        | none => .error "could not convert Accuracy"
                        | some cq => .ok ⟨dt, lat, lon, none, some cq⟩
                      | none => .ok ⟨dt, lat, lon, none, none⟩
          | _ => .error "TypeError: not subscriptable"

/-- The original claim's acceptance conditions, read over a decoded
document: an object carrying the three required keys, a timestamp in one of
the two accepted formats, numeric latitude and longitude. -/
def gpsDocOkOrig (kvs : List (String × Json)) : Bool :=
  (match objLookup kvs "Updated" with
   | some uv => (parseUpdatedDatetime (pyStr uv)).isSome
   | none => false) &&
  ((objLookup kvs "Latitude").bind pyFloat).isSome &&
  ((objLookup kvs "Longitude").bind pyFloat).isSome

def gpsAcceptsOrig (raw : Option Json) : Bool :=
  match raw with
  | some (.jobj kvs) => gpsDocOkOrig kvs
  | _ => false

/-- Optional-field condition the amended claim adds: a present, non-null
altitude or accuracy must itself be numeric. -/
def optFieldOk (kvs : List (String × Json)) (k : String) : Bool :=
  match getNonNull kvs k with
  | some v => (pyFloat v).isSome
  | none => true

/-- The amended claim's acceptance conditions. -/
def gpsAccepts (raw : Option Json) : Bool :=
  match raw with
  | some (.jobj kvs) =>
    gpsDocOkOrig kvs && optFieldOk kvs "Altitude" && optFieldOk kvs "Accuracy"
  | _ => false


/-- Location documents used by the C7 theorems. -/
def c7Doc : List (String × Json) :=
  [("Updated", .jstr "2025-08-29 21:05:52"), ("Latitude", .jfloat ⟨451, 1⟩),
   ("Longitude", .jfloat ⟨92, 1⟩), ("Altitude", .jfloat ⟨100456, 3⟩),
   ("Accuracy", .jnull)]

def c7BadAltDoc : List (String × Json) :=
  [("Updated", .jstr "2025-08-29 21:05:52"), ("Latitude", .jfloat ⟨451, 1⟩),
   ("Longitude", .jfloat ⟨92, 1⟩), ("Altitude", .jstr "abc")]

/-! ## ingest.py: hc22000 conversion output parsing and the upload flow -/

/-- `_is_hex`: even length, hex characters only. -/
def pyIsHexStr (s : String) : Bool :=
  s.length % 2 = 0 && s.toList.all isHexAny

def hexVal (c : Char) : Nat :=
  if c.isDigit then c.toNat - 48
  else if 'a' ≤ c && c ≤ 'f' then c.toNat - 87
  else if 'A' ≤ c && c ≤ 'F' then c.toNat - 55
  else 0

/-- `bytes.fromhex` on an all-hex even-length string. -/
def hexPairsToBytes : List Char → List Nat
  | a :: b :: rest => (16 * hexVal a + hexVal b) :: hexPairsToBytes rest
  | _ => []

/-- UTF-8 decoding with `errors="ignore"`: well-formed sequences decode,
ill-formed bytes are dropped (the model drops one byte at a time where
CPython may drop a short ill-formed run — indistinguishable on the all-valid
data the theorems exercise). -/
def utf8Aux : Nat → List Nat → List Char
  | 0, _ => []
  | _ + 1, [] => []
  | fuel + 1, b :: rest =>
    if b < 0x80 then Char.ofNat b :: utf8Aux fuel rest
    else if 0xC2 ≤ b && b ≤ 0xDF then
      match rest with
      | c1 :: rest2 =>
        if 0x80 ≤ c1 && c1 ≤ 0xBF then
          Char.ofNat ((b - 0xC0) * 64 + (c1 - 0x80)) :: utf8Aux fuel rest2
        else utf8Aux fuel rest
      | [] => []
    else if 0xE0 ≤ b && b ≤ 0xEF then
      match rest with
      | c1 :: c2 :: rest2 =>
        if (if b = 0xE0 then 0xA0 ≤ c1 && c1 ≤ 0xBF
            else if b = 0xED then 0x80 ≤ c1 && c1 ≤ 0x9F
            else 0x80 ≤ c1 && c1 ≤ 0xBF) && 0x80 ≤ c2 && c2 ≤ 0xBF then
          Char.ofNat ((b - 0xE0) * 4096 + (c1 - 0x80) * 64 + (c2 - 0x80))
            :: utf8Aux fuel rest2
        else utf8Aux fuel rest
      | _ => utf8Aux fuel rest
    else if 0xF0 ≤ b && b ≤ 0xF4 then
      match rest with
      | c1 :: c2 :: c3 :: rest2 =>
        if (if b = 0xF0 then 0x90 ≤ c1 && c1 ≤ 0xBF
            else if b = 0xF4 then 0x80 ≤ c1 && c1 ≤ 0x8F
            else 0x80 ≤ c1 && c1 ≤ 0xBF) && 0x80 ≤ c2 && c2 ≤ 0xBF &&
            0x80 ≤ c3 && c3 ≤ 0xBF then
          Char.ofNat ((b - 0xF0) * 262144 + (c1 - 0x80) * 4096 +
            (c2 - 0x80) * 64 + (c3 - 0x80)) :: utf8Aux fuel rest2
        else utf8Aux fuel rest
      | _ => utf8Aux fuel rest
    else utf8Aux fuel rest

def utf8DecodeIgnore (l : List Nat) : List Char :=
  utf8Aux l.length l

/-- `_decode_essid`: an even-length all-hex field is decoded as UTF-8 bytes
from hex (undecodable bytes ignored); anything else is used verbatim. -/
def decode_essid (essid_field : String) : String :=
  if pyIsHexStr essid_field then
    (utf8DecodeIgnore (hexPairsToBytes essid_field.toList)).asString
  else essid_field

/-- Parsed fields of one hc22000 hash line. -/
structure HashMeta where
  kind : String
  bssid : String
  station : String
  ssid : String
  hash_type : String
  variant : String
deriving DecidableEq

/-- `_parse_22000_line` after the `*`-split: kind code at position 1, AP
address at position 3, station at position 4, network-name at position 5,
for both `01` (PMKID) and `02` (EAPOL) codes. -/
def parse22000Parts (parts : List String) : Except String HashMeta :=
  if parts.length < 3 then .error "Truncated 22000 line"
  else if parts.getD 1 "" = "01" then
    if parts.length < 6 then .error "Invalid PMKID 22000 line"
    else .ok ⟨"PMKID", parts.getD 3 "", parts.getD 4 "",
      decode_essid (parts.getD 5 ""), "WPA", "PMKID"⟩
  else if parts.getD 1 "" = "02" then
    if parts.length < 6 then .error "Invalid EAPOL 22000 line"
    else .ok ⟨"EAPOL", parts.getD 3 "", parts.getD 4 "",
      decode_essid (parts.getD 5 ""), "WPA", "EAPOL"⟩
  else .error "Unknown 22000 kind code"

def parse_22000_line (line : String) : Except String HashMeta :=
  if pyStartsWith (pyStrip line) "WPA*" then
    parse22000Parts (pySplit '*' (pyStrip line))
  else .error "Not a 22000 WPA hashline"

/-- `_fmt_mac_colon`: keep hex characters, require exactly 12, join byte
pairs with colons, upper-case. -/
def fmt_mac_colon (hex12 : String) : String :=
  if (hex12.toList.filter isHexAny).length = 12 then
    pyUpper (macJoinChars (hex12.toList.filter isHexAny)).asString
  else ""

/-- Exception classes escaping the conversion step: `RuntimeError`s raised
by `convert_pcap_to_hc22000_and_meta` itself, and `ValueError`s raised by
`_parse_22000_line` — the upload handler catches only the former. -/
inductive ConvErr where
  | runtime (msg : String)
  | value (msg : String)
deriving DecidableEq

/-- Fields of the dict returned by `convert_pcap_to_hc22000_and_meta`. -/
structure ConvMeta where
  ssid : Option String
  bssid : Option String
  hashType : String
  variant : String
deriving DecidableEq

/-- BSSID normalization of `convert_pcap_to_hc22000_and_meta`: strip `:` and
`-`, lower-case. -/
def convBssidHex (metaBssid : String) : String :=
  pyLower (removeChar '-' (removeChar ':' metaBssid))

/-- The pure tail of `convert_pcap_to_hc22000_and_meta`, applied to the text
the external converter wrote (the subprocess invocation and file existence
checks are the external collaborator): reject empty output, find the first
`WPA*` line, parse it, then normalize the AP address — an invalid address
degrades to a null field, never to an error. -/
def convMetaOfText (text : String) : Except ConvErr ConvMeta :=
  if pyStrip text = "" then .error (.runtime "No valid WPA lines in .22000")
  else
    match (pySplitlines (pyStrip text)).find?
        (fun ln => pyStartsWith ln "WPA*") with
    | none => .error (.runtime "No WPA lines found in .22000")
    | some firstLine =>
      match parse_22000_line firstLine with
      | .error e => .error (.value e)
      | .ok meta =>
        if (convBssidHex meta.bssid).length = 12 &&
            (convBssidHex meta.bssid).toList.all isHexLower then
          .ok ⟨if meta.ssid = "" then none else some meta.ssid,
            some (fmt_mac_colon (convBssidHex meta.bssid)), "WPA", meta.variant⟩
        else
          .ok ⟨if meta.ssid = "" then none else some meta.ssid, none, "WPA",
            meta.variant⟩

/-- `safe_stem`: `Path(name).stem`, then the part before the first `_`. -/
def pathBase (s : String) : String :=
  ((s.toList.reverse.takeWhile (fun c => c ≠ '/')).reverse).asString

def pathStem (s : String) : String :=
  let base := (pathBase s).toList
  match findCharIdx '.' base.reverse with
  | some i =>
    if 0 < base.length - 1 - i && i ≠ 0 then (base.take (base.length - 1 - i)).asString
    else base.asString
  | none => base.asString

def safe_stem (name : String) : String :=
  let stem := pathStem name
  if pyContainsChar stem '_' then beforeFirst '_' stem else stem

/-- `norm_bssid` of the upload router: strip, upper-case, map `-` to `:`,
then require the canonical colon form. -/
def bssidColonRe (s : String) : Bool :=
  isValidBssid s

def dashToColon (s : String) : String :=
  (s.toList.map (fun c => if c = '-' then ':' else c)).asString

def norm_bssid (x : Option String) : Option String :=
  match x with
  | none => none
  | some s =>
    if s = "" then none
    else
      if bssidColonRe (dashToColon (pyUpper (pyStrip s))) then
        some (dashToColon (pyUpper (pyStrip s)))
      else none

/-- Record assembly of the `/api/upload` handler once GPS parsing succeeded:
fall back to the pcap filename stem for the network name, normalize the
address, resolve the vendor, format date and time, and always store a null
password. -/
def uploadAssemble (pcapFilename : String) (gi : GpsInfo)
    (hcMeta : Option ConvMeta) (oui : OuiTable) : InsertArgs :=
  { ssid := some (match hcMeta with
      | some m => m.ssid.getD (safe_stem pcapFilename)
      | none => safe_stem pcapFilename),
    hash_type := hcMeta.map (fun m => m.hashType),
    hash_variant := hcMeta.map (fun m => m.variant),
    bssid := norm_bssid (hcMeta.bind (fun m => m.bssid)),
    vendor := if (norm_bssid (hcMeta.bind (fun m => m.bssid))).isSome then
        lookup_vendor_from_csv oui (norm_bssid (hcMeta.bind (fun m => m.bssid)))
      else none,
    date := some (strfDate gi.dt),
    time := some (strfTime gi.dt),
    lat := some gi.latitude,
    lon := some gi.longitude,
    alt := gi.altitude,
    accuracy := gi.accuracy,
    password := none }

/-- The `/api/upload` handler's flow: parse the GPS document, run the
converter-output parsing when the subprocess produced text (`none` for
`convText` models a subprocess-level failure, caught as a soft
`RuntimeError`), then assemble the record to insert.  `none` is every path
on which no record is created: the handler's 400 rejections (missing
filename, bad GPS document) and a `ValueError` escaping
`_parse_22000_line` — the handler's `except RuntimeError` does not catch
that one, so the request dies before the insert. -/
def processUpload (pcapFilename : String) (gps : Option Json)
    (convText : Option String) (oui : OuiTable) : Option InsertArgs :=
  if pcapFilename = "" then none
  else
    match parse_gps_json gps with
    | .error _ => none
    | .ok gi =>
      match convText with
      | none => some (uploadAssemble pcapFilename gi none oui)
      | some text =>
        match convMetaOfText text with
        | .ok m => some (uploadAssemble pcapFilename gi (some m) oui)
        | .error (.runtime _) => some (uploadAssemble pcapFilename gi none oui)
        | .error (.value _) => none

/-! ## wpasec_sync.py: potfile download fallback decision -/

/-- `"<html" in r.text.lower() or "</html>" in r.text.lower()`. -/
def looksHtml (t : String) : Bool :=
  containsSub (pyLower t) "<html" || containsSub (pyLower t) "</html>"

/-- `_parse_text`: parse every line, keep the recognized pairs, dedupe. -/
def parsePotText (text : String) : List (String × String) :=
  dedup_cracked ((pySplitlines text).filterMap parse_pot_line)

/-- The cookie-fallback condition of `download_cracked_potfile`:
`(not pairs) and (looks_html or len(r.text) < 10)`. -/
def potFallbackTriggered (primary : String) : Bool :=
  (parsePotText primary).isEmpty &&
    (looksHtml primary || primary.length < 10)

/-- Transport decision of `download_cracked_potfile` over the two response
bodies (the HTTP requests, retries and status checks are the external
collaborator): returns the pair list used and whether the second,
cookie-authenticated request was issued. -/
def download_cracked_flow (primary secondary : String) :
    List (String × String) × Bool :=
  if potFallbackTriggered primary then (parsePotText secondary, true)
  else (parsePotText primary, false)

theorem toList_asString (l : List Char) : (List.asString l).toList = l := rfl

theorem length_eq_twelve {α} (l : List α) (h : l.length = 12) :
    ∃ a b c d e f g h2 i j k m, l = [a,b,c,d,e,f,g,h2,i,j,k,m] := by
  rcases l with _ | ⟨a, l⟩; · simp at h
  rcases l with _ | ⟨b, l⟩; · simp at h
  rcases l with _ | ⟨c, l⟩; · simp at h
  rcases l with _ | ⟨d, l⟩; · simp at h
  rcases l with _ | ⟨e, l⟩; · simp at h
  rcases l with _ | ⟨f, l⟩; · simp at h
  rcases l with _ | ⟨g, l⟩; · simp at h
  rcases l with _ | ⟨h2, l⟩; · simp at h
  rcases l with _ | ⟨i, l⟩; · simp at h
  rcases l with _ | ⟨j, l⟩; · simp at h
  rcases l with _ | ⟨k, l⟩; · simp at h
  rcases l with _ | ⟨m, l⟩; · simp at h
  rcases l with _ | ⟨x, l⟩
  · exact ⟨a,b,c,d,e,f,g,h2,i,j,k,m, rfl⟩
  · simp at h

theorem hex_to_mac_canonical (s : String) (h : hex_to_mac s ≠ "") :
    isCanonicalMac (hex_to_mac s) = true := by
  by_cases hb : (decide ((pyUpper (pyStrip s)).length = 12) &&
      (pyUpper (pyStrip s)).toList.all isHexUpper) = true
  · have hu : hex_to_mac s = (macJoinChars (pyUpper (pyStrip s)).toList).asString := by
      unfold hex_to_mac
      rw [if_pos hb]
    have hlen : (pyUpper (pyStrip s)).toList.length = 12 := by
      simp only [Bool.and_eq_true, decide_eq_true_eq] at hb
      exact hb.1
    have hall : (pyUpper (pyStrip s)).toList.all isHexUpper = true := by
      simp only [Bool.and_eq_true] at hb
      exact hb.2
    obtain ⟨a,b,c,d,e,f,g,h3,i,j,k,m, hl⟩ := length_eq_twelve _ hlen
    rw [hl] at hall
    simp only [List.all_cons, List.all_nil, Bool.and_eq_true] at hall
    rw [hu, hl]
    simp only [macJoinChars, isCanonicalMac, toList_asString]
    simp only [Bool.and_eq_true, decide_eq_true_eq]
    obtain ⟨q1,q2,q3,q4,q5,q6,q7,q8,q9,q10,q11,q12,_⟩ := hall
    simp [q1,q2,q3,q4,q5,q6,q7,q8,q9,q10,q11,q12]
  · exfalso
    apply h
    unfold hex_to_mac
    rw [if_neg hb]

theorem tryShortForm_sound {s a p} (h : tryShortForm s = some (a, p)) :
    isCanonicalMac a = true ∧ p ≠ "" := by
  rw [tryShortForm] at h
  simp only [] at h
  split at h
  · split at h
    · rename_i hg
      simp only [Option.some.injEq, Prod.mk.injEq] at h
      obtain ⟨ha, hp⟩ := h
      simp only [ne_eq, decide_not, Bool.and_eq_true, Bool.not_eq_true',
        decide_eq_false_iff_not] at hg
      subst ha hp
      exact ⟨hex_to_mac_canonical _ hg.1, hg.2⟩
    · exact absurd h (by simp)
  · exact absurd h (by simp)

theorem tryPlainForm_sound {s a p} (h : tryPlainForm s = some (a, p)) :
    isCanonicalMac a = true ∧ p ≠ "" := by
  rw [tryPlainForm] at h
  simp only [] at h
  split at h
  · split at h
    · rename_i hg
      simp only [Option.some.injEq, Prod.mk.injEq] at h
      obtain ⟨ha, hp⟩ := h
      simp only [ne_eq, decide_not, Bool.and_eq_true, Bool.not_eq_true',
        decide_eq_false_iff_not] at hg
      subst ha hp
      exact ⟨hex_to_mac_canonical _ hg.1, hg.2⟩
    · exact absurd h (by simp)
  · exact absurd h (by simp)

theorem tryHashForm_sound {s a p} (h : tryHashForm s = some (a, p)) :
    isCanonicalMac a = true ∧ p ≠ "" := by
  rw [tryHashForm] at h
  simp only [] at h
  split at h
  · split at h
    · rename_i hg
      split at h
      · split at h
        · rename_i hp
          simp only [Option.some.injEq, Prod.mk.injEq] at h
          obtain ⟨ha, hpw⟩ := h
          subst ha hpw
          simp only [ne_eq, decide_not, Bool.and_eq_true, Bool.not_eq_true',
            decide_eq_false_iff_not, decide_eq_true_eq] at hg hp
          exact ⟨hex_to_mac_canonical _ hp.2, hg.1⟩
        · split at h
          · rename_i hp2
            simp only [Option.some.injEq, Prod.mk.injEq] at h
            obtain ⟨ha, hpw⟩ := h
            subst ha hpw
            simp only [ne_eq, decide_not, Bool.and_eq_true, Bool.not_eq_true',
              decide_eq_false_iff_not] at hg hp2
            exact ⟨hex_to_mac_canonical _ (by simpa using hp2), hg.1⟩
          · exact absurd h (by simp)
      · exact absurd h (by simp)
    · exact absurd h (by simp)
  · exact absurd h (by simp)

theorem tryKvKeys_sound {s a p} : ∀ ks, tryKvKeys s ks = some (a, p) →
    isCanonicalMac a = true ∧ p ≠ "" := by
  intro ks
  induction ks with
  | nil => intro h; rw [tryKvKeys] at h; exact absurd h (by simp)
  | cons k ks ih =>
    intro h
    rw [tryKvKeys] at h
    simp only [] at h
    split at h
    · split at h
      · rename_i hb
        split at h
        · split at h
          · rename_i hpw
            simp only [Option.some.injEq, Prod.mk.injEq] at h
            obtain ⟨ha, hp2⟩ := h
            subst ha hp2
            exact ⟨hex_to_mac_canonical _ hb, hpw⟩
          · exact ih h
        · split at h
          · rename_i hpw
            exact absurd rfl hpw
          · exact ih h
      · exact ih h
    · exact ih h

theorem tryKvForm_sound {s a p} (h : tryKvForm s = some (a, p)) :
    isCanonicalMac a = true ∧ p ≠ "" :=
  tryKvKeys_sound _ h

/-- Value-merge rule of `_dedup_cracked`, as a fold step over the passwords
seen for one address: first-seen wins unless the kept one is empty and the
new one is not. -/
def keepPwd (cur : Option String) (p : String) : Option String :=
  match cur with
  | none => some p
  | some c => if c = "" && p ≠ "" then some p else some c

/-- The passwords of the input pairs that survive validation and normalize to
the given (upper-cased) address key, in input order. -/
def dedupOccs (key : String) (pairs : List (String × String)) : List String :=
  (pairs.filter (fun bp => isValidBssid bp.1 && pyUpper bp.1 = key)).map Prod.snd

theorem lookupA_setA_self (l : List (String × String)) (k v : String) :
    lookupA (setA l k v) k = some v := by
  induction l with
  | nil => simp [setA, lookupA]
  | cons kv rest ih =>
    obtain ⟨k0, v0⟩ := kv
    by_cases h : k0 = k
    · simp [setA, h, lookupA]
    · simp only [setA, if_neg h]
      simpa [lookupA, List.find?, h] using ih

theorem lookupA_setA_ne (l : List (String × String)) (k v k' : String)
    (h : k' ≠ k) : lookupA (setA l k v) k' = lookupA l k' := by
  induction l with
  | nil => simp [setA, lookupA, List.find?, Ne.symm h]
  | cons kv rest ih =>
    obtain ⟨k0, v0⟩ := kv
    by_cases h0 : k0 = k
    · subst h0
      simp [setA, lookupA, List.find?, Ne.symm h]
    · simp only [setA, if_neg h0]
      by_cases h1 : k0 = k'
      · simp [lookupA, List.find?, h1]
      · simp only [lookupA, List.find?] at ih ⊢
        simp only [show (decide (k0 = k') = false) from by simp [h1]]
        exact ih

theorem lookupA_dedupStep (best : List (String × String)) (bp : String × String)
    (key : String) :
    lookupA (dedupStep best bp) key =
      if isValidBssid bp.1 = true ∧ pyUpper bp.1 = key then
        keepPwd (lookupA best key) bp.2
      else lookupA best key := by
  rw [dedupStep]
  by_cases hv : isValidBssid bp.1 = true
  · simp only [hv, if_true, true_and]
    by_cases hk : pyUpper bp.1 = key
    · rw [hk]
      rcases hcur : lookupA best key with _ | cur
      · simp [hcur, keepPwd, lookupA_setA_self]
      · simp only [hcur, keepPwd]
        by_cases hc : cur = "" ∧ bp.2 ≠ ""
        · simp [hc.1, hc.2, lookupA_setA_self, if_pos, hcur]
        · have : (decide (cur = "") && decide (bp.2 ≠ "")) = false := by
            by_cases h1 : cur = "" <;> by_cases h2 : bp.2 = "" <;>
              simp_all
          simp [this, hcur]
          split <;> simp_all
    · rcases hcur : lookupA best (pyUpper bp.1) with _ | cur
      · simp [hcur, if_neg hk, lookupA_setA_ne _ _ _ _ (fun h => hk h.symm)]
      · simp only [hcur, if_neg hk]
        split
        · exact lookupA_setA_ne _ _ _ _ (fun h => hk h.symm)
        · rfl
  · simp [hv]

theorem lookupA_foldl_dedupStep (pairs : List (String × String)) :
    ∀ (best : List (String × String)) (key : String),
      lookupA (pairs.foldl dedupStep best) key =
        (dedupOccs key pairs).foldl keepPwd (lookupA best key) := by
  induction pairs with
  | nil => intro best key; simp [dedupOccs]
  | cons bp rest ih =>
    intro best key
    rw [List.foldl_cons, ih]
    by_cases h : isValidBssid bp.1 = true ∧ pyUpper bp.1 = key
    · have hocc : dedupOccs key (bp :: rest) = bp.2 :: dedupOccs key rest := by
        simp [dedupOccs, List.filter, h.1, h.2]
      rw [hocc, List.foldl_cons, lookupA_dedupStep, if_pos h]
    · have hcond : (isValidBssid bp.1 && decide (pyUpper bp.1 = key)) = false := by
        by_cases h1 : isValidBssid bp.1 = true <;>
          by_cases h2 : pyUpper bp.1 = key <;> simp_all
      have hocc : dedupOccs key (bp :: rest) = dedupOccs key rest := by
        simp [dedupOccs, List.filter, hcond]
      rw [hocc, lookupA_dedupStep, if_neg h]

theorem asString_toList (s : String) : s.toList.asString = s := rfl

theorem asString_data (s : String) : List.asString s.data = s := rfl

theorem contains_rstripCRLF {s : String} {c : Char}
    (h : s.toList.contains c = false) :
    (rstripCRLF s).toList.contains c = false := by
  simp only [rstripCRLF, toList_asString]
  apply Bool.eq_false_iff.mpr
  intro hc
  have hm : c ∈ (s.toList.reverse.dropWhile isCRLF).reverse := by
    simpa [List.contains] using hc
  rw [List.mem_reverse] at hm
  have hmem := (List.dropWhile_sublist _).subset hm
  rw [List.mem_reverse] at hmem
  have : s.toList.contains c = true := by
    simpa [List.contains] using hmem
  rw [this] at h
  exact Bool.true_eq_false.mp h

theorem charSplitAux_of_not_mem (sep : Char) :
    ∀ (l acc : List Char), l.contains sep = false →
      charSplitAux sep l acc = [acc.reverse ++ l] := by
  intro l
  induction l with
  | nil => intro acc _; simp [charSplitAux]
  | cons c rest ih =>
    intro acc h
    simp only [List.contains_cons, Bool.or_eq_false_iff] at h
    have hc : ¬ c = sep := by
      intro he
      rw [he] at h
      simp at h
    rw [charSplitAux, if_neg hc, ih _ (by
      simpa using h.2)]
    simp

theorem pySplit_no_sep {s : String} {sep : Char}
    (h : s.toList.contains sep = false) : pySplit sep s = [s] := by
  rw [pySplit, charSplitAux_of_not_mem sep _ _ h]
  simp [asString_toList, asString_data]

theorem dropWhile_append_last {α} {p : α → Bool} {a : α} (h : p a = false) :
    ∀ l : List α, ∃ u, List.dropWhile p (l ++ [a]) = u ++ [a] := by
  intro l
  induction l with
  | nil => exact ⟨[], by simp [List.dropWhile, h]⟩
  | cons c rest ih =>
    by_cases hc : p c = true
    · obtain ⟨u, hu⟩ := ih
      exact ⟨u, by simp [List.dropWhile, hc, hu]⟩
    · exact ⟨c :: rest, by simp [List.dropWhile, Bool.eq_false_iff.mpr hc]⟩

theorem startsWith_hash_rstripCRLF {s : String}
    (h : pyStartsWith s "#" = true) :
    pyStartsWith (rstripCRLF s) "#" = true := by
  simp only [pyStartsWith] at h
  rcases hl : s.toList with _ | ⟨c0, t⟩
  · rw [hl] at h
    simp [List.isPrefixOf] at h
  · rw [hl] at h
    have hc0 : c0 = '#' := by
      simp [List.isPrefixOf] at h
      exact h.symm
    subst hc0
    simp only [pyStartsWith, rstripCRLF, toList_asString, hl]
    have hnb : isCRLF '#' = false := by decide
    obtain ⟨u, hu⟩ := dropWhile_append_last hnb t.reverse
    have : ('#' :: t).reverse = t.reverse ++ ['#'] := by simp
    rw [this, hu]
    simp [List.isPrefixOf]

theorem tryShortForm_none_of_no_colon {s : String}
    (h : s.toList.contains ':' = false) : tryShortForm s = none := by
  rw [tryShortForm]
  simp only [pySplit_no_sep h]
  simp

theorem tryPlainForm_none_of_no_colon {s : String}
    (h : s.toList.contains ':' = false) : tryPlainForm s = none := by
  rw [tryPlainForm]
  simp only [pySplit_no_sep h]
  simp

theorem tryHashForm_none_of_no_colon {s : String}
    (h : s.toList.contains ':' = false) : tryHashForm s = none := by
  rw [tryHashForm, pyContainsChar, h]
  simp

theorem tryKvKeys_none_of_no_colon {s : String}
    (h : s.toList.contains ':' = false) :
    ∀ ks, tryKvKeys s ks = none := by
  intro ks
  induction ks with
  | nil => rw [tryKvKeys]
  | cons k rest ih =>
    rw [tryKvKeys]
    simp only []
    rcases hf : findKeyHex12 k.toList s.toList with _ | grp
    · exact ih
    · simp only []
      split
      · rw [pyContainsChar, h]
        simp only [if_false, Bool.false_eq_true]
        rw [if_neg (by simp)]
        exact ih
      · exact ih

/-- C3: `_dedup_cracked` keeps, for every address key, the first-seen password
among its validated occurrences, replacing it only when the kept password is
empty and a later one is not (never replacing a non-empty password); in
particular the empty/`hunter2` pair yields `hunter2` in either order and the
`first`/`second` pair yields `first`. -/
theorem c3_dedup_first_seen_unless_empty :
    (∀ (pairs : List (String × String)) (key : String),
      lookupA (dedup_cracked pairs) key = (dedupOccs key pairs).foldl keepPwd none)
    ∧ (∀ c p : String, keepPwd (some c) p = some (if c = "" ∧ p ≠ "" then p else c))
    ∧ dedup_cracked [("AA:BB:CC:DD:EE:FF", ""), ("AA:BB:CC:DD:EE:FF", "hunter2")]
        = [("AA:BB:CC:DD:EE:FF", "hunter2")]
    ∧ dedup_cracked [("AA:BB:CC:DD:EE:FF", "hunter2"), ("AA:BB:CC:DD:EE:FF", "")]
        = [("AA:BB:CC:DD:EE:FF", "hunter2")]
    ∧ dedup_cracked [("AA:BB:CC:DD:EE:FF", "first"), ("AA:BB:CC:DD:EE:FF", "second")]
        = [("AA:BB:CC:DD:EE:FF", "first")] := by
  refine ⟨?_, ?_, by decide, by decide, by decide⟩
  · intro pairs key
    rw [dedup_cracked, lookupA_foldl_dedupStep]
    simp [lookupA]
  · intro c p
    by_cases h1 : c = "" <;> by_cases h2 : p = "" <;> simp [keepPwd, h1, h2]

/-- C4: the potfile line parser returns `(AA:BB:CC:DD:EE:FF, secretpw)` for
the plain-form line `AABBCCDDEEFF:112233445566:MySSID:secretpw`, and returns
none for every line containing no colon and for every line starting with
`#` (the recognizers being tried in the fixed source order with first
success winning). -/
theorem c4_pot_line_outcomes :
    parse_pot_line "AABBCCDDEEFF:112233445566:MySSID:secretpw"
        = some ("AA:BB:CC:DD:EE:FF", "secretpw")
    ∧ (∀ s : String, s.toList.contains ':' = false → parse_pot_line s = none)
    ∧ (∀ s : String, pyStartsWith s "#" = true → parse_pot_line s = none) := by
  refine ⟨by decide, ?_, ?_⟩
  · intro s h
    have h' : (rstripCRLF s).toList.contains ':' = false := contains_rstripCRLF h
    rw [parse_pot_line, parsePotStripped]
    split
    · rfl
    · rw [tryShortForm_none_of_no_colon h', tryPlainForm_none_of_no_colon h',
        tryHashForm_none_of_no_colon h', tryKvForm]
      simp only [Option.orElse]
      exact tryKvKeys_none_of_no_colon h' kvKeys
  · intro s h
    rw [parse_pot_line, parsePotStripped]
    rw [if_pos]
    rw [startsWith_hash_rstripCRLF h]
    simp

theorem c4_witness :
    parse_pot_line "no separators here" = none ∧ parse_pot_line "#AABBCCDDEEFF:x:y:pw" = none :=
  ⟨c4_pot_line_outcomes.2.1 "no separators here" (by decide),
   c4_pot_line_outcomes.2.2 "#AABBCCDDEEFF:x:y:pw" (by decide)⟩

/-- C10: whenever `parse_pot_line` returns a pair, the password is a
non-empty string and the address is in canonical form — exactly six
two-hex-digit groups, upper-case, joined by colons — whichever recognizer
matched. -/
theorem c10_pot_line_pairs_canonical (line a p : String)
    (h : parse_pot_line line = some (a, p)) :
    isCanonicalMac a = true ∧ p ≠ "" := by
  rw [parse_pot_line, parsePotStripped] at h
  split at h
  · exact absurd h (by simp)
  · rcases h1 : tryShortForm (rstripCRLF line) with _ | pr
    · rw [h1] at h
      simp only [Option.orElse] at h
      rcases h2 : tryPlainForm (rstripCRLF line) with _ | pr
      · rw [h2] at h
        simp only [Option.orElse] at h
        rcases h3 : tryHashForm (rstripCRLF line) with _ | pr
        · rw [h3] at h
          simp only [Option.orElse] at h
          exact tryKvForm_sound h
        · rw [h3] at h
          simp only [Option.orElse, Option.some.injEq] at h
          subst h
          exact tryHashForm_sound h3
      · rw [h2] at h
        simp only [Option.orElse, Option.some.injEq] at h
        subst h
        exact tryPlainForm_sound h2
    · rw [h1] at h
      simp only [Option.orElse, Option.some.injEq] at h
      subst h
      exact tryShortForm_sound h1

theorem c10_witness :
    isCanonicalMac "AA:BB:CC:DD:EE:FF" = true ∧ "secretpw" ≠ "" :=
  c10_pot_line_pairs_canonical "AABBCCDDEEFF:112233445566:MySSID:secretpw"
    "AA:BB:CC:DD:EE:FF" "secretpw" (by decide)

theorem bulk_fst_eq_bulkRows (items : List (String × String)) :
    ∀ (rows : List NetworkRow) (n : Nat),
      (items.foldl bulkStep (rows, n)).1 = bulkRows items rows := by
  induction items with
  | nil => intro rows n; simp [bulkRows]
  | cons bp rest ih =>
    intro rows n
    rw [List.foldl_cons, bulkStep, bulkRows, List.foldl_cons, bulkRowsStep]
    by_cases h : (decide (bp.1 = "") || decide (bp.2 = "")) = true
    · rw [if_pos h, if_pos h]
      exact ih rows n
    · rw [if_neg h, if_neg h]
      exact ih _ _

theorem updCond_stepRow_self {b p : String} (hp : sqlTrim p ≠ "")
    (r : NetworkRow) :
    updCond b (if updCond b r then { r with password := some p } else r)
      = false := by
  by_cases h : updCond b r = true
  · rw [if_pos h]
    rw [updCond, pwBlank]
    simp [hp]
  · rw [if_neg h]
    exact Bool.eq_false_iff.mpr h

theorem updCond_stepRow_preserved {b : String} {q : String × String}
    {r : NetworkRow} (h : updCond b r = false) :
    updCond b (if updCond q.1 r then { r with password := some q.2 } else r)
      = false := by
  by_cases hq : updCond q.1 r = true
  · rw [updCond, Bool.and_eq_false_iff] at h
    rcases h with h | h
    · rw [if_pos hq, updCond, Bool.and_eq_false_iff]
      left
      simpa [rowMatches] using h
    · rw [updCond, Bool.and_eq_true] at hq
      rw [h] at hq
      exact absurd hq.2 (by simp)
  · rw [if_neg hq]
    exact h

theorem updCond_false_applyPair {b : String} {q : String × String}
    {rows : List NetworkRow} (hall : ∀ r ∈ rows, updCond b r = false) :
    ∀ r ∈ (applyPair q.1 q.2 rows).1, updCond b r = false := by
  intro r hr
  rw [applyPair] at hr
  simp only [List.mem_map] at hr
  obtain ⟨r0, hr0, rfl⟩ := hr
  exact updCond_stepRow_preserved (hall r0 hr0)

theorem updCond_false_bulkRows (b : String) :
    ∀ (items : List (String × String)) (rows : List NetworkRow),
      (∀ r ∈ rows, updCond b r = false) →
      ∀ r ∈ bulkRows items rows, updCond b r = false := by
  intro items
  induction items with
  | nil => intro rows hall r hr; exact hall r hr
  | cons q rest ih =>
    intro rows hall r hr
    rw [bulkRows, List.foldl_cons] at hr
    rw [bulkRowsStep] at hr
    by_cases hq : (decide (q.1 = "") || decide (q.2 = "")) = true
    · rw [if_pos hq] at hr
      exact ih rows hall r hr
    · rw [if_neg hq] at hr
      exact ih _ (updCond_false_applyPair hall) r hr

theorem updCond_false_after_own_pair :
    ∀ (items : List (String × String)) (rows : List NetworkRow)
      (bp : String × String), bp ∈ items → bp.1 ≠ "" → bp.2 ≠ "" →
      sqlTrim bp.2 ≠ "" →
      ∀ r ∈ bulkRows items rows, updCond bp.1 r = false := by
  intro items
  induction items with
  | nil => intro rows bp hbp; exact absurd hbp (by simp)
  | cons q rest ih =>
    intro rows bp hbp h1 h2 htrim r hr
    rw [bulkRows, List.foldl_cons] at hr
    rcases List.mem_cons.mp hbp with rfl | hbp
    · have hq : ¬ (decide (bp.1 = "") || decide (bp.2 = "")) = true := by
        simp [h1, h2]
      rw [bulkRowsStep, if_neg hq] at hr
      refine updCond_false_bulkRows bp.1 rest _ ?_ r hr
      intro r1 hr1
      rw [applyPair] at hr1
      simp only [List.mem_map] at hr1
      obtain ⟨r0, _, rfl⟩ := hr1
      exact updCond_stepRow_self htrim r0
    · exact ih _ bp hbp h1 h2 htrim r hr

theorem applyPair_id_of_all_false {b p : String} {rows : List NetworkRow}
    (hall : ∀ r ∈ rows, updCond b r = false) :
    applyPair b p rows = (rows, 0) := by
  rw [applyPair]
  have key : ∀ l : List NetworkRow, (∀ r ∈ l, updCond b r = false) →
      l.map (fun r => if updCond b r then { r with password := some p } else r)
        = l ∧ l.filter (updCond b) = [] := by
    intro l
    induction l with
    | nil => intro _; exact ⟨rfl, rfl⟩
    | cons r0 rest ih =>
      intro hl
      have h0 : updCond b r0 = false := hl r0 (List.mem_cons_self _ _)
      have hrest := ih (fun r hr => hl r (List.mem_cons_of_mem _ hr))
      constructor
      · rw [List.map_cons, if_neg (by simp [h0]), hrest.1]
      · rw [List.filter_cons, if_neg (by simp [h0])]
        exact hrest.2
  obtain ⟨h1, h2⟩ := key rows hall
  rw [h1, h2]
  rfl

theorem bulk_no_change_of_all_false :
    ∀ (items : List (String × String)) (rows : List NetworkRow) (n : Nat),
      (∀ bp ∈ items, bp.1 ≠ "" → bp.2 ≠ "" → ∀ r ∈ rows, updCond bp.1 r = false) →
      items.foldl bulkStep (rows, n) = (rows, n) := by
  intro items
  induction items with
  | nil => intro rows n _; rfl
  | cons q rest ih =>
    intro rows n hall
    rw [List.foldl_cons, bulkStep]
    by_cases hq : (decide (q.1 = "") || decide (q.2 = "")) = true
    · rw [if_pos hq]
      exact ih rows n (fun bp hbp => hall bp (List.mem_cons_of_mem _ hbp))
    · rw [if_neg hq]
      simp only [Bool.or_eq_true, decide_eq_true_eq, not_or] at hq
      have happ : applyPair q.1 q.2 rows = (rows, 0) :=
        applyPair_id_of_all_false (hall q (List.mem_cons_self _ _) hq.1 hq.2)
      rw [happ]
      simpa using ih rows n (fun bp hbp => hall bp (List.mem_cons_of_mem _ hbp))

theorem bulkRows_mem_shape :
    ∀ (items : List (String × String)) (rows : List NetworkRow)
      (r : NetworkRow), r ∈ bulkRows items rows →
      ∃ r0 ∈ rows, r = r0 ∨
        (pwBlank r0.password = true ∧ ∃ bp ∈ items, bp.1 ≠ "" ∧ bp.2 ≠ "" ∧
          rowMatches bp.1 r0 = true ∧ r = { r0 with password := some bp.2 }) := by
  intro items
  induction items with
  | nil =>
    intro rows r hr
    exact ⟨r, hr, Or.inl rfl⟩
  | cons q rest ih =>
    intro rows r hr
    rw [bulkRows, List.foldl_cons] at hr
    have hr' : r ∈ bulkRows rest (bulkRowsStep rows q) := hr
    obtain ⟨r1, hr1, hprop⟩ := ih (bulkRowsStep rows q) r hr'
    rw [bulkRowsStep] at hr1
    by_cases hq : (decide (q.1 = "") || decide (q.2 = "")) = true
    · rw [if_pos hq] at hr1
      refine ⟨r1, hr1, ?_⟩
      rcases hprop with h | ⟨hb, bp, hbp, hprop⟩
      · exact Or.inl h
      · exact Or.inr ⟨hb, bp, List.mem_cons_of_mem _ hbp, hprop⟩
    · rw [if_neg hq] at hr1
      rw [applyPair] at hr1
      simp only [List.mem_map] at hr1
      obtain ⟨r0, hr0, rfl⟩ := hr1
      simp only [Bool.or_eq_true, decide_eq_true_eq, not_or] at hq
      by_cases hc : updCond q.1 r0 = true
      · rw [if_pos hc]  at hprop
        rw [updCond, Bool.and_eq_true] at hc
        rcases hprop with h | ⟨hb, bp, hbp, hb1, hb2, hmatch, heq⟩
        · exact ⟨r0, hr0, Or.inr ⟨hc.2, q, List.mem_cons_self _ _,
            hq.1, hq.2, hc.1, h⟩⟩
        · refine ⟨r0, hr0, Or.inr ⟨hc.2, bp, List.mem_cons_of_mem _ hbp,
            hb1, hb2, hmatch, ?_⟩⟩
          exact heq
      · rw [if_neg hc] at hprop
        refine ⟨r0, hr0, ?_⟩
        rcases hprop with h | ⟨hb, bp, hbp, hprop⟩
        · exact Or.inl h
        · exact Or.inr ⟨hb, bp, List.mem_cons_of_mem _ hbp, hprop⟩

/-- C2 counterexample: a deduplicated pair whose password is a single space is
non-empty (so the update applies it) but SQL-blank, so the second run of the
correlation update matches the same row again and reports 1 updated row, not
0; such a pair is producible by the potfile parser and survives
deduplication unchanged. -/
theorem c2_counterexample :
    parse_pot_line "AABBCCDDEEFF:112233445566:MySSID: "
        = some ("AA:BB:CC:DD:EE:FF", " ")
    ∧ dedup_cracked [("AA:BB:CC:DD:EE:FF", " ")] = [("AA:BB:CC:DD:EE:FF", " ")]
    ∧ (bulk_update_passwords [("AA:BB:CC:DD:EE:FF", " ")]
        (bulk_update_passwords [("AA:BB:CC:DD:EE:FF", " ")] [c2Row]).1).2 = 1 :=
  ⟨by decide, by decide, by decide⟩

/-- C2 (amended): the correlation update only ever replaces a SQL-blank
(null or whitespace-only) password on a row whose stored address matches the
pair's address after separator-stripping and upper-casing, setting it to the
pair's non-empty password; and when every applied password is non-blank after
trimming (not merely non-empty), a second run with the same pair list updates
zero rows. -/
theorem c2_password_update_and_idempotence :
    (∀ (items : List (String × String)) (rows : List NetworkRow)
      (r : NetworkRow), r ∈ (bulk_update_passwords items rows).1 →
      ∃ r0 ∈ rows, r = r0 ∨
        (pwBlank r0.password = true ∧ ∃ bp ∈ items, bp.1 ≠ "" ∧ bp.2 ≠ "" ∧
          rowMatches bp.1 r0 = true ∧ r = { r0 with password := some bp.2 }))
    ∧ (∀ (items : List (String × String)) (rows : List NetworkRow),
      (∀ bp ∈ items, sqlTrim bp.2 ≠ "") →
      (bulk_update_passwords items
        (bulk_update_passwords items rows).1).2 = 0) := by
  constructor
  · intro items rows r hr
    rw [bulk_update_passwords, bulk_fst_eq_bulkRows] at hr
    exact bulkRows_mem_shape items rows r hr
  · intro items rows htrim
    have hrows2 : (bulk_update_passwords items rows).1 = bulkRows items rows := by
      rw [bulk_update_passwords, bulk_fst_eq_bulkRows]
    rw [bulk_update_passwords, hrows2]
    rw [bulk_no_change_of_all_false]
    intro bp hbp h1 h2 r hr
    exact updCond_false_after_own_pair items rows bp hbp h1 h2
      (htrim bp hbp) r hr

theorem c2_witness :
    (∃ r0 ∈ [c2Row], ({ c2Row with password := some "hunter2" } : NetworkRow) = r0 ∨
      (pwBlank r0.password = true ∧
        ∃ bp ∈ [("AA:BB:CC:DD:EE:FF", "hunter2")], bp.1 ≠ "" ∧ bp.2 ≠ "" ∧
          rowMatches bp.1 r0 = true ∧
          ({ c2Row with password := some "hunter2" } : NetworkRow)
            = { r0 with password := some bp.2 }))
    ∧ (bulk_update_passwords [("AA:BB:CC:DD:EE:FF", "hunter2")]
        (bulk_update_passwords [("AA:BB:CC:DD:EE:FF", "hunter2")] [c2Row]).1).2
        = 0 :=
  ⟨c2_password_update_and_idempotence.1 [("AA:BB:CC:DD:EE:FF", "hunter2")]
      [c2Row] { c2Row with password := some "hunter2" } (by decide),
   c2_password_update_and_idempotence.2 [("AA:BB:CC:DD:EE:FF", "hunter2")]
      [c2Row] (by decide)⟩

theorem insert_null_bssid (db : NetworksDb) (a : InsertArgs)
    (h : a.bssid = none) :
    insert_network_record db a =
      ({ rows := db.rows ++ [newRow a db.nextId],
         nextId := db.nextId + 1 }, Int.ofNat db.nextId) := by
  rw [insert_network_record]
  have hconf : insertConflicts db.rows a = false := by
    rw [insertConflicts, h]
  rw [if_neg (by simp [hconf])]
  rw [if_neg (by simp [h])]

theorem insert_dup_nonnull (db : NetworksDb) (a : InsertArgs)
    (b d t : String) (hb : a.bssid = some b) (hd : a.date = some d)
    (ht : a.time = some t) :
    insert_network_record (insert_network_record db a).1 a
      = insert_network_record db a := by
  by_cases hc : insertConflicts db.rows a = true
  · have h1 : insert_network_record db a = (db, selectDupId db.rows a) := by
      rw [insert_network_record, if_pos hc, if_pos (by simp [hb])]
    rw [h1]
    exact h1
  · have hcf : insertConflicts db.rows a = false := Bool.eq_false_iff.mpr hc
    have hnomatch : ∀ r ∈ db.rows, ¬ keyMatches b d t r = true := by
      rw [insertConflicts, hb, hd, ht] at hcf
      intro r hr hk
      rw [List.any_eq_false] at hcf
      exact hcf r hr hk
    have hnew : keyMatches b d t (newRow a db.nextId) = true := by
      simp [keyMatches, newRow, hb, hd, ht]
    have hfind : (db.rows ++ [newRow a db.nextId]).find?
        (keyMatches b d t) = some (newRow a db.nextId) := by
      rw [List.find?_append]
      rw [List.find?_eq_none.mpr hnomatch]
      rw [List.find?_cons_of_pos _ hnew]
      rfl
    have hid : (newRow a db.nextId).id = db.nextId := rfl
    have hsel : selectDupId (db.rows ++ [newRow a db.nextId]) a
        = Int.ofNat db.nextId := by
      unfold selectDupId
      rw [hb, hd, ht]
      dsimp only
      rw [hfind]
      rfl
    have hconf2 : insertConflicts (db.rows ++ [newRow a db.nextId]) a
        = true := by
      rw [insertConflicts, hb, hd, ht, List.any_eq_true]
      exact ⟨_, List.mem_append_right _ (List.mem_cons_self _ _), hnew⟩
    have h1 : insert_network_record db a =
        ({ rows := db.rows ++ [newRow a db.nextId],
           nextId := db.nextId + 1 }, Int.ofNat db.nextId) := by
      rw [insert_network_record, if_neg (by simp [hcf])]
      by_cases hz : (decide (db.nextId = 0) && a.bssid.isSome) = true
      · rw [if_pos hz, hsel]
      · rw [if_neg hz]
    have h2 : ∀ Y : NetworksDb, Y.rows = db.rows ++ [newRow a db.nextId] →
        insert_network_record Y a = (Y, Int.ofNat db.nextId) := by
      intro Y hY
      rw [insert_network_record, hY]
      rw [if_pos hconf2]
      rw [if_pos (by simp [hb])]
      exact congrArg (Prod.mk _) hsel
    rw [h1]
    exact h2 _ rfl

/-- C6: the UNIQUE(address, date, time) constraint never merges null-address
records — an insert with a null address always appends a fresh row and is
assigned a fresh id, so two null-address inserts with coinciding date and
time are both stored — while a repeated insert with the same non-null
address, date and time leaves the table unchanged and returns the id the
first insert reported. -/
theorem c6_null_address_never_merged :
    (∀ (db : NetworksDb) (a : InsertArgs), a.bssid = none →
      insert_network_record db a =
        ({ rows := db.rows ++ [newRow a db.nextId],
           nextId := db.nextId + 1 }, Int.ofNat db.nextId))
    ∧ (∀ (db : NetworksDb) (a1 a2 : InsertArgs), a1.bssid = none →
      a2.bssid = none →
      ((insert_network_record (insert_network_record db a1).1 a2).1).rows.length
        = db.rows.length + 2)
    ∧ (∀ (db : NetworksDb) (a : InsertArgs) (b d t : String),
      a.bssid = some b → a.date = some d → a.time = some t →
      insert_network_record (insert_network_record db a).1 a
        = insert_network_record db a) := by
  refine ⟨insert_null_bssid, ?_, ?_⟩
  · intro db a1 a2 h1 h2
    rw [insert_null_bssid db a1 h1]
    rw [insert_null_bssid _ a2 h2]
    simp
  · intro db a b d t hb hd ht
    exact insert_dup_nonnull db a b d t hb hd ht

theorem c6_witness :
    insert_network_record ⟨[], 1⟩
        ⟨some "n", none, none, none, none, some "2025-08-29", some "21:05:52",
         none, none, none, none, none⟩
      = (⟨[⟨⟨some "n", none, none, none, none, some "2025-08-29",
            some "21:05:52", none, none, none, none, none⟩, 1⟩], 2⟩, 1)
    ∧ insert_network_record
        (insert_network_record ⟨[], 1⟩ c2Row.toInsertArgs).1 c2Row.toInsertArgs
      = insert_network_record ⟨[], 1⟩ c2Row.toInsertArgs := by
  constructor
  · exact c6_null_address_never_merged.1 _ _ rfl
  · exact c6_null_address_never_merged.2.2 _ _ "AA:BB:CC:DD:EE:FF"
      "2025-08-29" "21:05:52" rfl rfl rfl
/-- C5 counterexample: a loaded table whose matching 36-bit entry carries an
empty vendor name — resolution skips it (the `if vendor:` truthiness test)
and returns the 24-bit entry's vendor instead of the 36-bit entry's. -/
theorem c5_counterexample :
    vendor_for_bssid (load_oui [["AABBCCDDE", ""], ["AABBCC", "Acme"]])
        "AA:BB:CC:DD:EE:FF" = some "Acme"
    ∧ lookupA (load_oui [["AABBCCDDE", ""], ["AABBCC", "Acme"]]).m9
        (takeStr 9 (ouiMacOf "AA:BB:CC:DD:EE:FF")) = some ""
    ∧ lookupA (load_oui [["AABBCCDDE", ""], ["AABBCC", "Acme"]]).m6
        (takeStr 6 (ouiMacOf "AA:BB:CC:DD:EE:FF")) = some "Acme"
    ∧ (some "Acme" : Option String) ≠ some "" :=
  ⟨by decide, by decide, by decide, by decide⟩

/-- C5 (amended): an address with fewer than 9 normalized hex characters
never resolves to a vendor; and whenever the 9-character prefix is present
in the 36-bit map with a non-empty vendor name, that vendor is returned —
prefix lengths are tried in the order 9, 7, 6, the first non-empty hit
winning, so a 36-bit entry with a non-empty vendor beats any matching
24-bit entry. -/
theorem c5_longest_prefix_wins :
    (∀ (t : OuiTable) (s : String), (ouiMacOf s).length < 9 →
      vendor_for_bssid t s = none)
    ∧ (∀ (t : OuiTable) (s v : String), 9 ≤ (ouiMacOf s).length →
      lookupA t.m9 (takeStr 9 (ouiMacOf s)) = some v → v ≠ "" →
      vendor_for_bssid t s = some v) := by
  constructor
  · intro t s h
    rw [vendor_for_bssid]
    by_cases hs : s = ""
    · rw [if_pos hs]
    · rw [if_neg hs, if_pos h]
  · intro t s v h9 hl hv
    have hs : ¬ s = "" := by
      intro he
      rw [he, show ouiMacOf "" = "" from rfl] at h9
      simp at h9
    rw [vendor_for_bssid, if_neg hs, if_neg (by omega)]
    rw [ouiHit, hl]
    dsimp only
    rw [if_pos hv]
    rfl

theorem c5_witness :
    vendor_for_bssid (load_oui [["AABBCCDDE", "Niner"], ["AABBCC", "Acme"]])
        "AA:BB:CC:DD:EE:FF" = some "Niner"
    ∧ vendor_for_bssid (load_oui [["AABBCCDDE", "Niner"], ["AABBCC", "Acme"]])
        "AA:BB:CC" = none :=
  ⟨c5_longest_prefix_wins.2 _ "AA:BB:CC:DD:EE:FF" "Niner" (by decide)
      (by decide) (by decide),
   c5_longest_prefix_wins.1 _ "AA:BB:CC" (by decide)⟩

theorem parse_gps_isOk_iff (raw : Option Json) :
    (parse_gps_json raw).isOk = true ↔ gpsAccepts raw = true := by
  rcases raw with _ | data
  · simp [parse_gps_json, gpsAccepts, Except.isOk, Except.toBool]
  rcases data with _ | b | n | q | s | xs | kvs
  · simp [parse_gps_json, gpsAccepts, pyContains, Except.isOk, Except.toBool]
  · simp [parse_gps_json, gpsAccepts, pyContains, Except.isOk, Except.toBool]
  · simp [parse_gps_json, gpsAccepts, pyContains, Except.isOk, Except.toBool]
  · simp [parse_gps_json, gpsAccepts, pyContains, Except.isOk, Except.toBool]
  · cases h1 : containsSub s "Updated" <;>
      cases h2 : containsSub s "Latitude" <;>
      cases h3 : containsSub s "Longitude" <;>
      simp [parse_gps_json, gpsAccepts, pyContains, h1, h2, h3, Except.isOk,
        Except.toBool]
  · cases h1 : xs.any (fun x => match x with | .jstr s => s = "Updated" | _ => false) <;>
      cases h2 : xs.any (fun x => match x with | .jstr s => s = "Latitude" | _ => false) <;>
      cases h3 : xs.any (fun x => match x with | .jstr s => s = "Longitude" | _ => false) <;>
      simp [parse_gps_json, gpsAccepts, pyContains, h1, h2, h3, Except.isOk,
        Except.toBool]
  · rcases hU : objLookup kvs "Updated" with _ | uv
    · simp [parse_gps_json, gpsAccepts, pyContains, gpsDocOkOrig, hU,
        Except.isOk, Except.toBool]
    rcases hLa0 : objLookup kvs "Latitude" with _ | lav
    · simp [parse_gps_json, gpsAccepts, pyContains, gpsDocOkOrig, hU, hLa0,
        Except.isOk, Except.toBool]
    rcases hLo0 : objLookup kvs "Longitude" with _ | lov
    · simp [parse_gps_json, gpsAccepts, pyContains, gpsDocOkOrig, hU, hLa0,
        hLo0, Except.isOk, Except.toBool]
    rcases hdt : parseUpdatedDatetime (pyStr uv) with _ | dt
    · simp [parse_gps_json, gpsAccepts, pyContains, gpsDocOkOrig, hU, hLa0,
        hLo0, hdt, Except.isOk, Except.toBool]
    rcases hLaF : pyFloat lav with _ | laq
    · simp [parse_gps_json, gpsAccepts, pyContains, gpsDocOkOrig, hU, hLa0,
        hLo0, hdt, hLaF, Except.isOk, Except.toBool]
    rcases hLoF : pyFloat lov with _ | loq
    · simp [parse_gps_json, gpsAccepts, pyContains, gpsDocOkOrig, hU, hLa0,
        hLo0, hdt, hLaF, hLoF, Except.isOk, Except.toBool]
    rcases hAlt : getNonNull kvs "Altitude" with _ | av
    · rcases hAcc : getNonNull kvs "Accuracy" with _ | cv
      · simp [parse_gps_json, gpsAccepts, pyContains, gpsDocOkOrig, optFieldOk,
          hU, hLa0, hLo0, hdt, hLaF, hLoF, hAlt, hAcc, Except.isOk, Except.toBool]
      · rcases hAccF : pyFloat cv with _ | cq <;>
          simp [parse_gps_json, gpsAccepts, pyContains, gpsDocOkOrig, optFieldOk,
            hU, hLa0, hLo0, hdt, hLaF, hLoF, hAlt, hAcc, hAccF, Except.isOk,
            Except.toBool]
    · rcases hAltF : pyFloat av with _ | aq
      · simp [parse_gps_json, gpsAccepts, pyContains, gpsDocOkOrig, optFieldOk,
          hU, hLa0, hLo0, hdt, hLaF, hLoF, hAlt, hAltF, Except.isOk, Except.toBool]
      · rcases hAcc : getNonNull kvs "Accuracy" with _ | cv
        · simp [parse_gps_json, gpsAccepts, pyContains, gpsDocOkOrig, optFieldOk,
            hU, hLa0, hLo0, hdt, hLaF, hLoF, hAlt, hAltF, hAcc, Except.isOk,
            Except.toBool]
        · rcases hAccF : pyFloat cv with _ | cq <;>
            simp [parse_gps_json, gpsAccepts, pyContains, gpsDocOkOrig, optFieldOk,
              hU, hLa0, hLo0, hdt, hLaF, hLoF, hAlt, hAltF, hAcc, hAccF,
              Except.isOk, Except.toBool]

theorem parse_gps_ok_shape (kvs : List (String × Json)) (g : GpsInfo)
    (h : parse_gps_json (some (.jobj kvs)) = .ok g) :
    g.altitude = (getNonNull kvs "Altitude").bind
      (fun v => (pyFloat v).map round2)
    ∧ g.accuracy = (getNonNull kvs "Accuracy").bind pyFloat := by
  rw [parse_gps_json] at h
  repeat' split at h
  all_goals simp_all
  all_goals (rw [← h]; exact ⟨rfl, rfl⟩)

/-- C7 counterexample: a document that is valid JSON, carries all three
required fields, a well-formed timestamp and numeric coordinates — none of
the defects the claim lists — yet fails to parse, because its present
altitude is a non-numeric string. -/
theorem c7_counterexample :
    gpsAcceptsOrig (some (.jobj c7BadAltDoc)) = true
    ∧ (parse_gps_json (some (.jobj c7BadAltDoc))).isOk = false :=
  ⟨by decide, by decide⟩

/-- C7 (amended): the location parser succeeds exactly when the bytes decode,
the decoded value is an object carrying the three required fields, the
timestamp matches one of the two accepted formats, latitude and longitude are
numeric, and any present non-null altitude or accuracy is itself numeric; on
success the altitude is returned rounded to 2 decimals when present and
explicitly absent (never zero) when missing, and likewise accuracy,
unrounded. -/
theorem c7_gps_error_taxonomy :
    (∀ raw : Option Json,
      (parse_gps_json raw).isOk = true ↔ gpsAccepts raw = true)
    ∧ (∀ (kvs : List (String × Json)) (g : GpsInfo),
      parse_gps_json (some (.jobj kvs)) = .ok g →
      g.altitude = (getNonNull kvs "Altitude").bind
        (fun v => (pyFloat v).map round2)
      ∧ g.accuracy = (getNonNull kvs "Accuracy").bind pyFloat) :=
  ⟨parse_gps_isOk_iff, parse_gps_ok_shape⟩

theorem c7_witness :
    ((⟨⟨2025, 8, 29, 21, 5, 52⟩, ⟨451, 1⟩, ⟨92, 1⟩, some ⟨10046, 2⟩, none⟩ :
        GpsInfo).altitude
      = (getNonNull c7Doc "Altitude").bind (fun v => (pyFloat v).map round2))
    ∧ ((⟨⟨2025, 8, 29, 21, 5, 52⟩, ⟨451, 1⟩, ⟨92, 1⟩, some ⟨10046, 2⟩, none⟩ :
        GpsInfo).accuracy = (getNonNull c7Doc "Accuracy").bind pyFloat) :=
  c7_gps_error_taxonomy.2 c7Doc
    ⟨⟨2025, 8, 29, 21, 5, 52⟩, ⟨451, 1⟩, ⟨92, 1⟩, some ⟨10046, 2⟩, none⟩
    (by rfl)

/-- C1 counterexample: on the claim's own example line the EAPOL branch takes
the AP address from position 3 (position 2 is the MIC field) and the
network-name from position 5, so the extracted record carries address
`11:22:33:44:55:66` and verbatim name `00...:` — not `AA:BB:CC:DD:EE:FF` and
`MySSID` as claimed. -/
theorem c1_counterexample :
    convMetaOfText "WPA*02*aabbccddeeff*112233445566*4d7953534944*00...:"
      = .ok ⟨some "00...:", some "11:22:33:44:55:66", "WPA", "EAPOL"⟩
    ∧ (some "11:22:33:44:55:66" : Option String) ≠ some "AA:BB:CC:DD:EE:FF"
    ∧ (some "00...:" : Option String) ≠ some "MySSID" :=
  ⟨by rfl, by decide, by decide⟩

/-- C1 (amended): for an EAPOL (`02`) hash line with at least 6 `*`-separated
fields, the AP address is taken from position 3 — the field after the MIC at
position 2 — and the network-name from position 5 (hex-decoded when
even-length hex); the spec's example line therefore yields a record with
address `11:22:33:44:55:66`, verbatim network-name `00...:`, date
`2025-08-29`, time `21:05:52`, and a null password. -/
theorem c1_eapol_field_positions :
    (∀ (p0 p2 p3 p4 p5 : String) (rest : List String),
      parse22000Parts (p0 :: "02" :: p2 :: p3 :: p4 :: p5 :: rest)
        = .ok ⟨"EAPOL", p3, p4, decode_essid p5, "WPA", "EAPOL"⟩)
    ∧ processUpload "capture.pcap"
        (some (.jobj [("Updated", .jstr "2025-08-29 21:05:52"),
          ("Latitude", .jfloat ⟨451, 1⟩), ("Longitude", .jfloat ⟨92, 1⟩)]))
        (some "WPA*02*aabbccddeeff*112233445566*4d7953534944*00...:")
        ⟨[], [], []⟩
      = some ⟨some "00...:", some "WPA", some "EAPOL",
          some "11:22:33:44:55:66", none, some "2025-08-29", some "21:05:52",
          some ⟨451, 1⟩, some ⟨92, 1⟩, none, none, none⟩ := by
  constructor
  · intro p0 p2 p3 p4 p5 rest
    rw [parse22000Parts]
    rw [if_neg (by simp), if_neg (by simp), if_pos (by simp), if_neg (by simp)]
    rfl
  · rfl

/-- C8: when the first `WPA*` line parses but its AP-address field is not
exactly 12 hex characters after separator-stripping and lower-casing, the
extraction still returns a record — with a null address and the remaining
fields populated — rather than failing. -/
theorem c8_invalid_address_not_fatal (text firstLine : String)
    (meta : HashMeta)
    (hfind : (pySplitlines (pyStrip text)).find?
      (fun ln => pyStartsWith ln "WPA*") = some firstLine)
    (hparse : parse_22000_line firstLine = .ok meta)
    (hbad : (decide ((convBssidHex meta.bssid).length = 12) &&
      (convBssidHex meta.bssid).toList.all isHexLower) = false) :
    convMetaOfText text = .ok ⟨if meta.ssid = "" then none
      else some meta.ssid, none, "WPA", meta.variant⟩ := by
  have hne : ¬ pyStrip text = "" := by
    intro he
    rw [he, show pySplitlines "" = [] from rfl] at hfind
    simp at hfind
  rw [convMetaOfText, if_neg hne, hfind]
  dsimp only
  rw [hparse]
  dsimp only
  rw [if_neg (fun hcond => by rw [hcond] at hbad; exact Bool.true_eq_false.mp hbad)]

theorem c8_witness :
    convMetaOfText "WPA*02*mic*GG*stat*name*x"
      = .ok ⟨some "name", none, "WPA", "EAPOL"⟩ :=
  c8_invalid_address_not_fatal "WPA*02*mic*GG*stat*name*x"
    "WPA*02*mic*GG*stat*name*x"
    ⟨"EAPOL", "GG", "stat", "name", "WPA", "EAPOL"⟩ (by rfl) (by rfl) (by rfl)

/-- C9 counterexample: a primary body that is non-empty and in no way
HTML-like — but shorter than 10 characters and yielding no pairs — still
triggers the cookie-authenticated fallback request. -/
theorem c9_counterexample :
    (download_cracked_flow "hello" "").2 = true
    ∧ "hello" ≠ ""
    ∧ looksHtml "hello" = false :=
  ⟨by decide, by decide, by decide⟩

/-- C9 (amended): the cookie-authenticated fallback request is issued exactly
when the primary body yields an empty parsed pair list AND the body either
looks like HTML or is shorter than 10 characters; in particular no fallback
is ever issued for a primary body of at least 10 characters that is not
HTML-like. -/
theorem c9_fallback_condition :
    (∀ primary secondary : String,
      (download_cracked_flow primary secondary).2 = true ↔
        (parsePotText primary = [] ∧
          (looksHtml primary = true ∨ primary.length < 10)))
    ∧ (∀ primary secondary : String, 10 ≤ primary.length →
        looksHtml primary = false →
        (download_cracked_flow primary secondary).2 = false) := by
  have key : ∀ primary secondary : String,
      (download_cracked_flow primary secondary).2 = true ↔
        (parsePotText primary = [] ∧
          (looksHtml primary = true ∨ primary.length < 10)) := by
    intro primary secondary
    rw [download_cracked_flow]
    by_cases h : potFallbackTriggered primary = true
    · rw [if_pos h]
      simp only [potFallbackTriggered, Bool.and_eq_true, Bool.or_eq_true,
        List.isEmpty_iff, decide_eq_true_eq] at h
      simpa using h
    · rw [if_neg h]
      simp only [potFallbackTriggered, Bool.and_eq_true, Bool.or_eq_true,
        List.isEmpty_iff, decide_eq_true_eq] at h
      simpa using h
  refine ⟨key, ?_⟩
  intro primary secondary hlen hhtml
  by_cases h : (download_cracked_flow primary secondary).2 = true
  · rcases ((key primary secondary).mp h).2 with h1 | h1
    · rw [h1] at hhtml
      exact absurd hhtml (by simp)
    · omega
  · exact Bool.eq_false_iff.mpr h

theorem c9_witness :
    (download_cracked_flow "AABBCCDDEEFF:112233445566:MySSID:pw" "x").2
      = false :=
  c9_fallback_condition.2 "AABBCCDDEEFF:112233445566:MySSID:pw" "x"
    (by decide) (by decide)

end Pwnmap
